import Mathlib

/-!
# nginx-jwt: token issuance filters and the verification handler

A shallow embedding of `ngx_http_jwt_module.c`.

* Octet strings (`ngx_str_t`, buffer ranges) are lists of octets; a `char *` handed to or
  returned by libjwt is a NUL-free list (`CStr`), and passing a buffer as `char *` keeps the
  octets before the first NUL.
* `size_t` values are naturals reduced modulo `2 ^ 64`, `off_t` values are integers; the casts
  between them are explicit (`to_off_t`, `to_size_t`).
* Everything the module calls but does not define (the next filters, the pool allocator, the
  cookie parser, base64, libjwt) is a field of `Env`; libjwt's token type is a type parameter.
* The request state carries the parts of `ngx_http_request_t` that the module reads or writes,
  plus the error log and the list of calls made to the next filters.
* Equality of claim sets as JSON, which the round trip is stated with, is defined by a reader
  for JSON texts (`json_parse`, `json_equal`).
-/

namespace NgxJwt

/-! ## Machine types -/

/-- Octet, the C type `u_char`. -/
abbrev u_char := Fin 256

/-- Octet string: `len` is the list length, `data` its elements. -/
abbrev ngx_str_t := List u_char

/-- Return codes, the C type `ngx_int_t`. -/
abbrev ngx_int_t := Int

/-- Modulus of `size_t` arithmetic. -/
def SIZE_MOD : Nat := 2 ^ 64

/-- Cast `(off_t) n` of a `size_t`: two's complement reinterpretation on 64 bits. -/
def to_off_t (n : Nat) : Int :=
  if n % SIZE_MOD < 2 ^ 63 then ((n % SIZE_MOD : Nat) : Int)
  else ((n % SIZE_MOD : Nat) : Int) - (SIZE_MOD : Int)

/-- Cast `(size_t) i` of an `off_t`. -/
def to_size_t (i : Int) : Nat := (i % (SIZE_MOD : Int)).toNat

/-- C string (`char *`): the octets before the terminating NUL. -/
def CStr := { s : List u_char // ∀ b ∈ s, b ≠ 0 }

instance : DecidableEq CStr := by
  unfold CStr; infer_instance

/-- Length of a C string, `strlen`. -/
def strlen (s : CStr) : Nat := s.val.length

/-- Reading a NUL-terminated buffer as `char *`: the octets up to the first NUL. -/
def c_str (bytes : List u_char) : CStr :=
  ⟨bytes.takeWhile (fun b => decide (b ≠ 0)), by
    intro b hb
    have h := List.mem_takeWhile_imp hb
    simpa using h⟩

/-! ## Constants of the host and of libjwt -/

/-- Modelled from the spec: the host's "continue" decision; `ngx_core.h`, which defines
`NGX_OK` as 0, is not part of the sources. -/
def NGX_OK : ngx_int_t := 0

/-- Modelled from the spec: the host's generic failure (server error) decision; `ngx_core.h`,
which defines `NGX_ERROR` as -1, is not part of the sources. -/
def NGX_ERROR : ngx_int_t := -1

/-- Modelled from the spec: the canonical "success" response status; `ngx_http_request.h`,
which defines `NGX_HTTP_OK` as 200, is not part of the sources. -/
def NGX_HTTP_OK : Nat := 200

/-- Modelled from the spec: the "payload too large" outcome; `ngx_http_request.h`, which
defines `NGX_HTTP_REQUEST_ENTITY_TOO_LARGE` as 413, is not part of the sources. -/
def NGX_HTTP_REQUEST_ENTITY_TOO_LARGE : ngx_int_t := 413

/-- Algorithms of `ngx_http_jwt_algorithms` (the values of libjwt's `jwt_alg_t`). -/
inductive jwt_alg_t
  | JWT_ALG_NONE
  | JWT_ALG_HS256
  | JWT_ALG_HS384
  | JWT_ALG_HS512
  | JWT_ALG_RS256
  | JWT_ALG_RS384
  | JWT_ALG_RS512
  | JWT_ALG_ES256
  | JWT_ALG_ES384
  | JWT_ALG_ES512
  deriving DecidableEq, Repr

open jwt_alg_t

/-! ## Module structures -/

/-- Location configuration, `ngx_http_jwt_conf_t`. -/
structure ngx_http_jwt_conf_t where
  key : ngx_str_t
  issue : Bool
  issue_algorithm : jwt_alg_t
  issue_buffer_size : Nat
  verify : Bool
  deriving DecidableEq

/-- Request context, `ngx_http_jwt_ctx_t`: `length` is the size the body buffer is allocated
with; `body` is `none` while the pointer is NULL and otherwise holds the octets written so far,
the range from `body` to `last`. -/
structure ngx_http_jwt_ctx_t where
  length : Nat
  body : Option (List u_char)
  deriving DecidableEq

/-- Occupied length of the body buffer, `ctx->last - ctx->body`. -/
def ngx_http_jwt_ctx_t.occupied (ctx : ngx_http_jwt_ctx_t) : Nat :=
  match ctx.body with
  | none => 0
  | some bytes => bytes.length

/-! ## Host structures -/

/-- Buffer of a chain link: the octets from `pos` to `last` and the two flags the module
reads or sets. -/
structure ngx_buf_t where
  bytes : List u_char
  memory : Bool
  last_buf : Bool
  deriving DecidableEq

/-- Buffer chain; the empty list is the NULL chain. -/
abbrev ngx_chain_t := List ngx_buf_t

/-- Size of an in-memory buffer, `ngx_buf_size`. -/
def ngx_buf_size (b : ngx_buf_t) : Nat := b.bytes.length

/-- Header line, `ngx_table_elt_t`. -/
structure ngx_table_elt_t where
  hash : Nat
  key : ngx_str_t
  value : ngx_str_t
  deriving DecidableEq

/-- Request headers: the header list, the `authorization` pointer (an index into the list,
`none` for NULL) and the cookie header lines. -/
structure ngx_http_headers_in_t where
  headers : List ngx_table_elt_t
  authorization : Option Nat
  cookies : List ngx_table_elt_t
  deriving DecidableEq

/-- Response headers: status and declared content length (`-1` when absent). -/
structure ngx_http_headers_out_t where
  status : Nat
  content_length_n : Int
  deriving DecidableEq

/-- Messages the module writes with `ngx_log_error`. -/
inductive log_msg
  | issue_too_large_body
  | issue_ctx_create
  | issue_ctx_missing
  | issue_jwt_new
  | issue_jwt_set_alg
  | issue_jwt_add_grants
  | issue_jwt_encode_str
  | verify_missing_key
  | verify_no_authorization
  | verify_decode
  | verify_alg_none
  | verify_grants
  deriving DecidableEq, Repr

/-- Call made to one of the next filters: the response headers passed to
`ngx_http_next_header_filter`, or the chain passed to `ngx_http_next_body_filter`. -/
inductive downstream_call
  | header (headers_out : ngx_http_headers_out_t)
  | body (chain : ngx_chain_t)
  deriving DecidableEq

/-- Request state, the part of `ngx_http_request_t` the module touches, with the error log of
the connection and the calls made downstream so far. -/
structure ngx_http_request_t where
  headers_in : ngx_http_headers_in_t
  headers_out : ngx_http_headers_out_t
  header_only : Bool
  ctx : Option ngx_http_jwt_ctx_t
  log : List log_msg
  downstream : List downstream_call
  deriving DecidableEq

/-- Everything the module calls without defining it. Allocators return whether they succeed;
`ngx_http_next_header_filter` returns its code and the value of `r->header_only` it leaves;
`ngx_http_parse_multi_header_lines` returns `none` for `NGX_DECLINED`; the libjwt functions
return `none` for a nonzero error code or a NULL result. -/
structure Env (jwt_t : Type) where
  ngx_http_next_header_filter : ngx_http_request_t → ngx_int_t × Bool
  ngx_http_next_body_filter : ngx_http_request_t → ngx_chain_t → ngx_int_t
  ngx_pcalloc : ngx_http_request_t → Nat → Bool
  ngx_palloc : ngx_http_request_t → Nat → Bool
  ngx_pool_cleanup_add : ngx_http_request_t → Bool
  ngx_alloc_chain_link : ngx_http_request_t → Bool
  ngx_calloc_buf : ngx_http_request_t → Bool
  ngx_list_push : ngx_http_request_t → Bool
  malloc : Nat → Bool
  ngx_http_parse_multi_header_lines : List ngx_table_elt_t → ngx_str_t → Option ngx_str_t
  ngx_base64_encoded_length : Nat → Nat
  ngx_encode_base64 : ngx_str_t → ngx_str_t
  jwt_new : Option jwt_t
  jwt_set_alg : jwt_t → jwt_alg_t → ngx_str_t → Option jwt_t
  jwt_add_grants_json : jwt_t → CStr → Option jwt_t
  jwt_encode_str : jwt_t → Option CStr
  jwt_decode : CStr → ngx_str_t → Option jwt_t
  jwt_get_alg : jwt_t → jwt_alg_t
  jwt_get_grants_json : jwt_t → Option CStr

/-- Append a message to the error log, `ngx_log_error`. -/
def ngx_log_error (r : ngx_http_request_t) (m : log_msg) : ngx_http_request_t :=
  { r with log := r.log ++ [m] }

/-- Size of the module context passed to `ngx_pcalloc`: three machine words. -/
def sizeof_ctx : Nat := 24

/-! ## Issuance: header filter -/

/-- Embedding of `ngx_http_jwt_issue_header_filter`. -/
def ngx_http_jwt_issue_header_filter {jwt_t : Type} (env : Env jwt_t)
    (conf : ngx_http_jwt_conf_t) (r : ngx_http_request_t) : ngx_int_t × ngx_http_request_t :=
  if !conf.issue then
    let res := env.ngx_http_next_header_filter r
    (res.1, { r with header_only := res.2,
                     downstream := r.downstream ++ [downstream_call.header r.headers_out] })
  else
    let len := r.headers_out.content_length_n
    if len > 0 ∧ len > to_off_t conf.issue_buffer_size then
      (NGX_HTTP_REQUEST_ENTITY_TOO_LARGE, ngx_log_error r log_msg.issue_too_large_body)
    else
      let got : Option ngx_http_jwt_ctx_t :=
        match r.ctx with
        | some ctx => some ctx
        | none => if env.ngx_pcalloc r sizeof_ctx then some ⟨0, none⟩ else none
      match got with
      | none => (NGX_ERROR, ngx_log_error r log_msg.issue_ctx_create)
      | some ctx =>
        let length := if len = -1 then conf.issue_buffer_size
                      else (to_size_t len + 1) % SIZE_MOD
        (NGX_OK, { r with ctx := some { ctx with length := length } })

/-! ## Issuance: body filter -/

/-- The loop of `ngx_http_jwt_issue_body_filter` over the links of the chain: each buffer is
appended at `ctx->last` unless `pos + size > ctx->length - 1` in `size_t` arithmetic, in which
case the loop stops; the flag tells whether the loop ran to the end of the chain. Buffers
appended before the one that does not fit stay in the body buffer. -/
def collect_chain (length : Nat) : List u_char → ngx_chain_t → List u_char × Bool
  | body, [] => (body, true)
  | body, b :: cl =>
    let size := ngx_buf_size b
    let pos := body.length
    if (pos + size) % SIZE_MOD > (length + SIZE_MOD - 1) % SIZE_MOD then (body, false)
    else collect_chain length (body ++ b.bytes) cl

/-- Second half of `ngx_http_jwt_issue_body_filter`, from `jwt_new` to the call of the next
body filter: `body` is the content of the body buffer, read as a NUL-terminated string. -/
def issue_token {jwt_t : Type} (env : Env jwt_t) (conf : ngx_http_jwt_conf_t)
    (r : ngx_http_request_t) (body : List u_char) : ngx_int_t × ngx_http_request_t :=
  match env.jwt_new with
  | none => (NGX_ERROR, ngx_log_error r log_msg.issue_jwt_new)
  | some token =>
  match env.jwt_set_alg token conf.issue_algorithm conf.key with
  | none => (NGX_ERROR, ngx_log_error r log_msg.issue_jwt_set_alg)
  | some token =>
  match env.jwt_add_grants_json token (c_str body) with
  | none => (NGX_ERROR, ngx_log_error r log_msg.issue_jwt_add_grants)
  | some token =>
  match env.jwt_encode_str token with
  | none => (NGX_ERROR, ngx_log_error r log_msg.issue_jwt_encode_str)
  | some token_data =>
  if !env.ngx_pool_cleanup_add r then (NGX_ERROR, r)
  else
  let token_size := strlen token_data
  if !env.ngx_alloc_chain_link r then (NGX_ERROR, r)
  else if !env.ngx_calloc_buf r then (NGX_ERROR, r)
  else
  let buf : ngx_buf_t := { bytes := token_data.val, memory := true, last_buf := true }
  let out : ngx_chain_t := [buf]
  let r1 : ngx_http_request_t :=
    { r with headers_out := { r.headers_out with content_length_n := to_off_t token_size } }
  let res := env.ngx_http_next_header_filter r1
  let r2 : ngx_http_request_t :=
    { r1 with header_only := res.2,
              downstream := r1.downstream ++ [downstream_call.header r1.headers_out] }
  if res.1 = NGX_ERROR ∨ res.1 > NGX_OK ∨ r2.header_only = true then (NGX_ERROR, r2)
  else (env.ngx_http_next_body_filter r2 out,
        { r2 with downstream := r2.downstream ++ [downstream_call.body out] })

/-- What the body filter does with a chain once its buffers are appended: `NGX_OK` when the
last buffer of the chain is not marked `last_buf`, the token issuance otherwise. -/
def after_collect {jwt_t : Type} (env : Env jwt_t) (conf : ngx_http_jwt_conf_t)
    (r : ngx_http_request_t) (body : List u_char) (chain : ngx_chain_t) :
    ngx_int_t × ngx_http_request_t :=
  match chain.getLast? with
  | some b => if !b.last_buf then (NGX_OK, r) else issue_token env conf r body
  | none => issue_token env conf r body

/-- Embedding of `ngx_http_jwt_issue_body_filter`. The input buffers, whose `pos` the loop
advances, belong to the caller and are not part of the request state. -/
def ngx_http_jwt_issue_body_filter {jwt_t : Type} (env : Env jwt_t)
    (conf : ngx_http_jwt_conf_t) (r : ngx_http_request_t) (chain : ngx_chain_t) :
    ngx_int_t × ngx_http_request_t :=
  if !conf.issue ∨ chain = [] ∨ r.headers_out.status ≠ NGX_HTTP_OK then
    let res := env.ngx_http_next_header_filter r
    let r1 : ngx_http_request_t :=
      { r with header_only := res.2,
               downstream := r.downstream ++ [downstream_call.header r.headers_out] }
    if res.1 = NGX_ERROR ∨ res.1 > NGX_OK ∨ r1.header_only = true then (NGX_ERROR, r1)
    else (env.ngx_http_next_body_filter r1 chain,
          { r1 with downstream := r1.downstream ++ [downstream_call.body chain] })
  else
    match r.ctx with
    | none => (NGX_ERROR, ngx_log_error r log_msg.issue_ctx_missing)
    | some ctx =>
      let allocated : Option (List u_char) :=
        match ctx.body with
        | some bytes => some bytes
        | none => if env.ngx_palloc r ctx.length then some [] else none
      match allocated with
      | none => (NGX_ERROR, r)
      | some bytes =>
        let res := collect_chain ctx.length bytes chain
        let r1 : ngx_http_request_t := { r with ctx := some { ctx with body := some res.1 } }
        if !res.2 then
          (NGX_HTTP_REQUEST_ENTITY_TOO_LARGE, ngx_log_error r1 log_msg.issue_too_large_body)
        else
          after_collect env conf r1 res.1 chain

/-! ## Verification handler -/

/-- Name of the fallback cookie, the octets of `authorization`. -/
def cookie_name : ngx_str_t :=
  [97, 117, 116, 104, 111, 114, 105, 122, 97, 116, 105, 111, 110]

/-- Key of the header the handler creates, the octets of `Authorization`. -/
def authorization_key : ngx_str_t :=
  [65, 117, 116, 104, 111, 114, 105, 122, 97, 116, 105, 111, 110]

/-- Value of the header line the `authorization` pointer refers to. -/
def authorization_value (h : ngx_http_headers_in_t) : Option ngx_str_t :=
  match h.authorization with
  | none => none
  | some i => h.headers[i]?.map (fun e => e.value)

/-- Assignment through a pointer into the header list: `headers[i].value = v`. -/
def set_value : List ngx_table_elt_t → Nat → ngx_str_t → List ngx_table_elt_t
  | [], _, _ => []
  | e :: es, 0, v => { e with value := v } :: es
  | e :: es, i + 1, v => e :: set_value es i v

/-- First step of `ngx_http_jwt_verify_handler`: the candidate token and the request after it
has been taken. A present `Authorization` header gives its value and is cleared with
`ngx_str_null`; otherwise the value of the cookie `authorization` is used and the request is
left as it is; `none` when there is neither. -/
def token_source {jwt_t : Type} (env : Env jwt_t) (r : ngx_http_request_t) :
    Option (ngx_str_t × ngx_http_request_t) :=
  match r.headers_in.authorization with
  | some i =>
    some ((r.headers_in.headers[i]?.map (fun e => e.value)).getD [],
          { r with headers_in :=
              { r.headers_in with headers := set_value r.headers_in.headers i [] } })
  | none =>
    match env.ngx_http_parse_multi_header_lines r.headers_in.cookies cookie_name with
    | none => none
    | some value => some (value, r)

/-- Embedding of `ngx_http_jwt_verify_handler`. -/
def ngx_http_jwt_verify_handler {jwt_t : Type} (env : Env jwt_t)
    (conf : ngx_http_jwt_conf_t) (r : ngx_http_request_t) : ngx_int_t × ngx_http_request_t :=
  if !conf.verify then (NGX_OK, r)
  else if conf.key.length = 0 then (NGX_ERROR, ngx_log_error r log_msg.verify_missing_key)
  else
    -- retrieve the authorization token from header or cookie
    match token_source env r with
    | none => (NGX_OK, ngx_log_error r log_msg.verify_no_authorization)
    | some (auth_header, r1) =>
      -- copy the token to a NUL-terminated string for libjwt
      if !env.ngx_pcalloc r1 (auth_header.length + 1) then (NGX_ERROR, r1)
      else
        match env.jwt_decode (c_str auth_header) conf.key with
        | none => (NGX_OK, ngx_log_error r1 log_msg.verify_decode)
        | some token =>
          if env.jwt_get_alg token = JWT_ALG_NONE then
            (NGX_OK, ngx_log_error r1 log_msg.verify_alg_none)
          else
            match env.jwt_get_grants_json token with
            | none => (NGX_OK, ngx_log_error r1 log_msg.verify_grants)
            | some grants =>
              if !env.malloc (env.ngx_base64_encoded_length (strlen grants)) then
                (NGX_ERROR, r1)
              else
                let base64 := env.ngx_encode_base64 grants.val
                -- create or update the authorization header
                match r1.headers_in.authorization with
                | none =>
                  if !env.ngx_list_push r1 then (NGX_ERROR, r1)
                  else
                    let h : ngx_table_elt_t :=
                      { hash := 1, key := authorization_key, value := base64 }
                    (NGX_OK,
                     { r1 with headers_in :=
                        { r1.headers_in with
                            headers := r1.headers_in.headers ++ [h],
                            authorization := some r1.headers_in.headers.length } })
                | some i =>
                  (NGX_OK,
                   { r1 with headers_in :=
                      { r1.headers_in with
                          headers := set_value r1.headers_in.headers i base64 } })

/-! ## Responses as sequences of body-filter calls -/

/-- Octets of a chain, in link order. -/
def chain_bytes : ngx_chain_t → List u_char
  | [] => []
  | b :: cl => b.bytes ++ chain_bytes cl

/-- Octets of a sequence of chains, in arrival order. -/
def calls_bytes : List ngx_chain_t → List u_char
  | [] => []
  | chain :: calls => chain_bytes chain ++ calls_bytes calls

/-- Modelled from the spec: the host's filter-chain contract (section 6), which hands the
chunks of a response to the body filter one call after the other; the host is not part of the
sources. The result is the request state after the calls. -/
def feed {jwt_t : Type} (env : Env jwt_t) (conf : ngx_http_jwt_conf_t) :
    ngx_http_request_t → List ngx_chain_t → ngx_http_request_t
  | r, [] => r
  | r, chain :: calls => feed env conf (ngx_http_jwt_issue_body_filter env conf r chain).2 calls

/-- The token libjwt produces from the content of the body buffer: the library calls of
`issue_token` in their order, `none` when one of them fails. -/
def token_of_body {jwt_t : Type} (env : Env jwt_t) (conf : ngx_http_jwt_conf_t)
    (body : List u_char) : Option CStr :=
  env.jwt_new.bind fun token =>
    (env.jwt_set_alg token conf.issue_algorithm conf.key).bind fun token =>
      (env.jwt_add_grants_json token (c_str body)).bind fun token =>
        env.jwt_encode_str token

/-- Tokens libjwt builds for issuance from the JSON text `c` under `alg` and `key`: the
result of `jwt_new`, `jwt_set_alg` and `jwt_add_grants_json` in that order. -/
def built {jwt_t : Type} (env : Env jwt_t) (alg : jwt_alg_t) (key : ngx_str_t) (c : CStr)
    (token : jwt_t) : Prop :=
  ∃ t0 t1, env.jwt_new = some t0 ∧ env.jwt_set_alg t0 alg key = some t1
    ∧ env.jwt_add_grants_json t1 c = some token

/-! ## JSON texts

What it means for two texts to be equal as JSON up to the order of object keys: a reader for
JSON texts and the comparison of the values read. Numbers and strings are compared as
written. -/

/-- JSON values. An array is a chain of `array_item` closed by `array_end`, an object a chain
of `object_member` closed by `object_end`; numbers and strings keep their text. -/
inductive json_t
  | null
  | true_value
  | false_value
  | number (text : List u_char)
  | string (text : List u_char)
  | array_end
  | array_item (item : json_t) (rest : json_t)
  | object_end
  | object_member (key : List u_char) (value : json_t) (rest : json_t)
  deriving DecidableEq

/-- What the reader is to read next: a value, the items of an array after its first
bracket, or the members of an object after its first brace. -/
inductive json_goal
  | value
  | items
  | members

/-- Drop leading JSON white space: space, tab, line feed, carriage return. -/
def skip_ws : List u_char → List u_char
  | [] => []
  | b :: rest => if b = 32 ∨ b = 9 ∨ b = 10 ∨ b = 13 then skip_ws rest else b :: rest

/-- Decimal digit. -/
def json_digit (b : u_char) : Bool := decide (48 ≤ b.val ∧ b.val ≤ 57)

/-- Hexadecimal digit. -/
def json_hex (b : u_char) : Bool :=
  json_digit b || decide (65 ≤ b.val ∧ b.val ≤ 70) || decide (97 ≤ b.val ∧ b.val ≤ 102)

/-- Read a string after its opening quote: its text, escapes kept as written, and the input
after the closing quote. -/
def scan_string : List u_char → Option (List u_char × List u_char)
  | [] => none
  | b :: rest =>
    if b = 34 then some ([], rest)
    else if b = 92 then
      match rest with
      | [] => none
      | e :: rest1 =>
        if e = 117 then
          match rest1 with
          | h1 :: h2 :: h3 :: h4 :: rest2 =>
            if json_hex h1 && json_hex h2 && json_hex h3 && json_hex h4 then
              (scan_string rest2).map fun p => (b :: e :: h1 :: h2 :: h3 :: h4 :: p.1, p.2)
            else none
          | _ => none
        else if e = 34 ∨ e = 92 ∨ e = 47 ∨ e = 98 ∨ e = 102 ∨ e = 110 ∨ e = 114 ∨ e = 116 then
          (scan_string rest1).map fun p => (b :: e :: p.1, p.2)
        else none
    else if b.val < 32 then none
    else (scan_string rest).map fun p => (b :: p.1, p.2)

/-- Read a non-empty run of digits. -/
def scan_digits (input : List u_char) : Option (List u_char × List u_char) :=
  match input.span json_digit with
  | ([], _) => none
  | (digits, rest) => some (digits, rest)

/-- Read a number: optional minus, integer part without leading zero, optional fraction,
optional exponent. -/
def scan_number (input : List u_char) : Option (List u_char × List u_char) :=
  let signed : List u_char × List u_char :=
    match input with
    | b :: rest => if b = 45 then ([b], rest) else ([], input)
    | [] => ([], input)
  let whole : Option (List u_char × List u_char) :=
    match signed.2 with
    | b :: rest => if b = 48 then some ([b], rest) else scan_digits signed.2
    | [] => none
  whole.bind fun w =>
    let fraction : Option (List u_char × List u_char) :=
      match w.2 with
      | b :: rest =>
        if b = 46 then (scan_digits rest).map fun p => (b :: p.1, p.2) else some ([], w.2)
      | [] => some ([], w.2)
    fraction.bind fun f =>
      let exponent : Option (List u_char × List u_char) :=
        match f.2 with
        | b :: rest =>
          if b = 101 ∨ b = 69 then
            match rest with
            | s :: rest1 =>
              if s = 43 ∨ s = 45 then (scan_digits rest1).map fun p => (b :: s :: p.1, p.2)
              else (scan_digits rest).map fun p => (b :: p.1, p.2)
            | [] => none
          else some ([], f.2)
        | [] => some ([], f.2)
      exponent.map fun e => (signed.1 ++ w.1 ++ f.1 ++ e.1, e.2)

/-- Read one of the literal names, given by its octets. -/
def scan_name (name : List u_char) (v : json_t) (input : List u_char) :
    Option (json_t × List u_char) :=
  if name.isPrefixOf input then some (v, input.drop name.length) else none

/-- Recursive-descent reader for JSON; the first argument bounds the depth of the descent. -/
def json_scan : Nat → json_goal → List u_char → Option (json_t × List u_char)
  | 0, _, _ => none
  | n + 1, json_goal.value, input =>
    match skip_ws input with
    | [] => none
    | b :: rest =>
      if b = 123 then
        match skip_ws rest with
        | [] => none
        | c :: rest1 =>
          if c = 125 then some (json_t.object_end, rest1)
          else json_scan n json_goal.members (c :: rest1)
      else if b = 91 then
        match skip_ws rest with
        | [] => none
        | c :: rest1 =>
          if c = 93 then some (json_t.array_end, rest1)
          else json_scan n json_goal.items (c :: rest1)
      else if b = 34 then (scan_string rest).map fun p => (json_t.string p.1, p.2)
      else if b = 116 then scan_name [116, 114, 117, 101] json_t.true_value (b :: rest)
      else if b = 102 then scan_name [102, 97, 108, 115, 101] json_t.false_value (b :: rest)
      else if b = 110 then scan_name [110, 117, 108, 108] json_t.null (b :: rest)
      else (scan_number (b :: rest)).map fun p => (json_t.number p.1, p.2)
  | n + 1, json_goal.items, input =>
    match json_scan n json_goal.value input with
    | none => none
    | some (v, rest) =>
      match skip_ws rest with
      | [] => none
      | c :: rest1 =>
        if c = 44 then
          (json_scan n json_goal.items rest1).map fun p => (json_t.array_item v p.1, p.2)
        else if c = 93 then some (json_t.array_item v json_t.array_end, rest1)
        else none
  | n + 1, json_goal.members, input =>
    match skip_ws input with
    | [] => none
    | q :: rest =>
      if q = 34 then
        match scan_string rest with
        | none => none
        | some (key, rest1) =>
          match skip_ws rest1 with
          | [] => none
          | c :: rest2 =>
            if c = 58 then
              match json_scan n json_goal.value rest2 with
              | none => none
              | some (v, rest3) =>
                match skip_ws rest3 with
                | [] => none
                | d :: rest4 =>
                  if d = 44 then
                    (json_scan n json_goal.members rest4).map
                      fun p => (json_t.object_member key v p.1, p.2)
                  else if d = 125 then
                    some (json_t.object_member key v json_t.object_end, rest4)
                  else none
            else none
      else none

/-- The JSON value a text denotes, `none` when the text is not JSON. -/
def json_parse (text : List u_char) : Option json_t :=
  if text.all (fun b => decide (b ≠ 0)) then
    match json_scan (2 * text.length + 2) json_goal.value text with
    | some (v, rest) => if skip_ws rest = [] then some v else none
    | none => none
  else none

/-- Order of object keys: lexicographic on octets. -/
def key_le : List u_char → List u_char → Bool
  | [], _ => true
  | _ :: _, [] => false
  | a :: as, b :: bs => if a = b then key_le as bs else decide (a.val < b.val)

/-- Put a member into a chain of members ordered by key. -/
def insert_member (key : List u_char) (value : json_t) : json_t → json_t
  | json_t.object_member k v rest =>
    if key_le key k then json_t.object_member key value (json_t.object_member k v rest)
    else json_t.object_member k v (insert_member key value rest)
  | other => json_t.object_member key value other

/-- The value with the members of every object ordered by key. -/
def sort_keys : json_t → json_t
  | json_t.array_item item rest => json_t.array_item (sort_keys item) (sort_keys rest)
  | json_t.object_member key value rest =>
    insert_member key (sort_keys value) (sort_keys rest)
  | v => v

/-- JSON equality up to key order: both texts are JSON and denote the same value once the
members of every object are ordered by key. -/
def json_equal (s t : List u_char) : Prop :=
  match json_parse s, json_parse t with
  | some v, some w => sort_keys v = sort_keys w
  | _, _ => False

instance (s t : List u_char) : Decidable (json_equal s t) := by
  unfold json_equal
  split <;> infer_instance

/-- The text is a JSON object. -/
def json_object (text : List u_char) : Prop :=
  match json_parse text with
  | some json_t.object_end => True
  | some (json_t.object_member _ _ _) => True
  | _ => False

instance (text : List u_char) : Decidable (json_object text) := by
  unfold json_object
  split <;> infer_instance

/-- The assumption on libjwt that its decode inverts its encode under `key`: whenever the
issuance calls (`jwt_new`, `jwt_set_alg` with `alg` and `key`, `jwt_add_grants_json`,
`jwt_encode_str`) turn a claims text `c` into a token, `jwt_decode` under the same key accepts
that token and gives back the algorithm `alg` and, through `jwt_get_grants_json`, a claims
text equal to `c` as JSON up to key order. -/
def decode_inverts_encode {jwt_t : Type} (env : Env jwt_t) (alg : jwt_alg_t)
    (key : ngx_str_t) : Prop :=
  ∀ (c : CStr) (token : jwt_t) (token_data : CStr),
    built env alg key c token → env.jwt_encode_str token = some token_data →
    ∃ decoded grants, env.jwt_decode token_data key = some decoded
      ∧ env.jwt_get_alg decoded = alg
      ∧ env.jwt_get_grants_json decoded = some grants
      ∧ json_equal grants.val c.val

/-! ## A concrete environment

A small stand-in for the host and for libjwt, used to run the embedding on concrete
requests and responses: every allocation succeeds, the next filters accept, a token is the
tag octet of its algorithm, a dot, and the claims text. -/

/-- Tag octet of an algorithm in the stand-in token format. -/
def demo_tag : jwt_alg_t → u_char
  | JWT_ALG_NONE => 78
  | JWT_ALG_HS256 => 65
  | JWT_ALG_HS384 => 66
  | JWT_ALG_HS512 => 67
  | JWT_ALG_RS256 => 68
  | JWT_ALG_RS384 => 69
  | JWT_ALG_RS512 => 70
  | JWT_ALG_ES256 => 71
  | JWT_ALG_ES384 => 72
  | JWT_ALG_ES512 => 73

/-- Algorithm of a tag octet. -/
def demo_alg (b : u_char) : Option jwt_alg_t :=
  [JWT_ALG_NONE, JWT_ALG_HS256, JWT_ALG_HS384, JWT_ALG_HS512, JWT_ALG_RS256, JWT_ALG_RS384,
    JWT_ALG_RS512, JWT_ALG_ES256, JWT_ALG_ES384, JWT_ALG_ES512].find?
    (fun alg => decide (demo_tag alg = b))

/-- Stand-in for the cookie parser: the value of the first cookie line of the form
`name=value`. -/
def demo_cookie (cookies : List ngx_table_elt_t) (name : ngx_str_t) : Option ngx_str_t :=
  cookies.findSome? fun e =>
    if (name ++ [61]).isPrefixOf e.value then some (e.value.drop (name.length + 1)) else none

/-- Stand-in for base64: two letters per octet, one for each half of it. -/
def demo_encode : ngx_str_t → ngx_str_t
  | [] => []
  | b :: bs => Fin.ofNat (97 + b.val / 16) :: Fin.ofNat (97 + b.val % 16) :: demo_encode bs

/-- Inverse of `demo_encode`. -/
def demo_decode : ngx_str_t → Option ngx_str_t
  | [] => some []
  | [_] => none
  | hi :: lo :: rest =>
    (demo_decode rest).map fun bs => Fin.ofNat ((hi.val - 97) * 16 + (lo.val - 97)) :: bs

/-- The concrete environment. -/
def demo_env : Env (jwt_alg_t × List u_char) where
  ngx_http_next_header_filter := fun _ => (NGX_OK, false)
  ngx_http_next_body_filter := fun _ _ => NGX_OK
  ngx_pcalloc := fun _ _ => true
  ngx_palloc := fun _ _ => true
  ngx_pool_cleanup_add := fun _ => true
  ngx_alloc_chain_link := fun _ => true
  ngx_calloc_buf := fun _ => true
  ngx_list_push := fun _ => true
  malloc := fun _ => true
  ngx_http_parse_multi_header_lines := demo_cookie
  ngx_base64_encoded_length := fun n => (n + 2) / 3 * 4
  ngx_encode_base64 := demo_encode
  jwt_new := some (JWT_ALG_NONE, [])
  jwt_set_alg := fun token alg _ => some (alg, token.2)
  jwt_add_grants_json := fun token c =>
    if c.val.head? = some 123 ∧ c.val.getLast? = some 125 then some (token.1, c.val) else none
  jwt_encode_str := fun token => some (c_str (demo_tag token.1 :: 46 :: token.2))
  jwt_decode := fun token_data _ =>
    match token_data.val with
    | tag :: 46 :: grants => (demo_alg tag).map fun alg => (alg, grants)
    | _ => none
  jwt_get_alg := fun token => token.1
  jwt_get_grants_json := fun token => some (c_str token.2)

/-- The concrete environment with claims accepted when they are JSON texts. -/
def demo_json_env : Env (jwt_alg_t × List u_char) :=
  { demo_env with
    jwt_add_grants_json := fun token c =>
      if (json_parse c.val).isSome then some (token.1, c.val) else none }

/-- Configuration with issuance and verification on, key `k`, algorithm HS256. -/
def demo_conf (issue_buffer_size : Nat) : ngx_http_jwt_conf_t :=
  { key := [107], issue := true, issue_algorithm := JWT_ALG_HS256,
    issue_buffer_size := issue_buffer_size, verify := true }

/-- Fresh response state with the given status and declared length. -/
def demo_response (status : Nat) (content_length_n : Int) : ngx_http_request_t :=
  { headers_in := { headers := [], authorization := none, cookies := [] },
    headers_out := { status := status, content_length_n := content_length_n },
    header_only := false, ctx := none, log := [], downstream := [] }

/-- Request state with the given header lines, `authorization` pointer and cookie lines. -/
def demo_request (headers : List ngx_table_elt_t) (authorization : Option Nat)
    (cookies : List ngx_table_elt_t) : ngx_http_request_t :=
  { headers_in := { headers := headers, authorization := authorization, cookies := cookies },
    headers_out := { status := 0, content_length_n := -1 },
    header_only := false, ctx := none, log := [], downstream := [] }

/-- Buffer in memory holding the given octets. -/
def demo_buf (bytes : List u_char) (last_buf : Bool) : ngx_buf_t :=
  { bytes := bytes, memory := false, last_buf := last_buf }

/-- The octets of the JSON text of the claim set with `sub` set to `alice`. -/
def demo_claims : List u_char :=
  [123, 34, 115, 117, 98, 34, 58, 34, 97, 108, 105, 99, 101, 34, 125]

/-- Header line `Host: h`. -/
def demo_host : ngx_table_elt_t := { hash := 7, key := [72, 111, 115, 116], value := [104] }

/-- Request whose second header line is `Authorization` with the given value. -/
def demo_header_request (value : ngx_str_t) : ngx_http_request_t :=
  demo_request [demo_host, { hash := 9, key := authorization_key, value := value }] (some 1) []

/-- Request without `Authorization` header whose cookie line sets `authorization` to the
given value. -/
def demo_cookie_request (value : ngx_str_t) : ngx_http_request_t :=
  demo_request [demo_host] none
    [{ hash := 3, key := [67, 111, 111, 107, 105, 101], value := cookie_name ++ 61 :: value }]

/-- Stand-in token for `demo_claims` under the given algorithm. -/
def demo_token (alg : jwt_alg_t) : List u_char := demo_tag alg :: 46 :: demo_claims

/-! ## Facts about the header list -/

theorem set_value_length (hs : List ngx_table_elt_t) (i : Nat) (v : ngx_str_t) :
    (set_value hs i v).length = hs.length := by
  induction hs generalizing i with
  | nil => simp [set_value]
  | cons e es ih =>
    cases i with
    | zero => simp [set_value]
    | succ i => simp [set_value, ih]

theorem set_value_get_self (hs : List ngx_table_elt_t) (i : Nat) (v : ngx_str_t) :
    (set_value hs i v)[i]?.map (fun e => e.value) = hs[i]?.map (fun _ => v) := by
  induction hs generalizing i with
  | nil => simp [set_value]
  | cons e es ih =>
    cases i with
    | zero => simp [set_value]
    | succ i => simpa [set_value] using ih i

theorem set_value_get_other (hs : List ngx_table_elt_t) (i j : Nat) (v : ngx_str_t)
    (hij : j ≠ i) : (set_value hs i v)[j]? = hs[j]? := by
  induction hs generalizing i j with
  | nil => simp [set_value]
  | cons e es ih =>
    cases i with
    | zero =>
      cases j with
      | zero => exact absurd rfl hij
      | succ j => simp [set_value]
    | succ i =>
      cases j with
      | zero => simp [set_value]
      | succ j =>
        have : j ≠ i := fun h => hij (by rw [h])
        simpa [set_value] using ih i j this

theorem set_value_set_value (hs : List ngx_table_elt_t) (i : Nat) (v w : ngx_str_t) :
    set_value (set_value hs i v) i w = set_value hs i w := by
  induction hs generalizing i with
  | nil => simp [set_value]
  | cons e es ih =>
    cases i with
    | zero => simp [set_value]
    | succ i => simp [set_value, ih]

/-! ## Verification handler: properties -/

theorem token_source_of_header {jwt_t : Type} (env : Env jwt_t) (r : ngx_http_request_t)
    (i : Nat) (h : r.headers_in.authorization = some i) :
    token_source env r
      = some ((r.headers_in.headers[i]?.map (fun e => e.value)).getD [],
              { r with headers_in :=
                  { r.headers_in with headers := set_value r.headers_in.headers i [] } }) := by
  simp [token_source, h]

theorem token_source_of_cookie {jwt_t : Type} (env : Env jwt_t) (r : ngx_http_request_t)
    (h : r.headers_in.authorization = none) :
    token_source env r
      = (env.ngx_http_parse_multi_header_lines r.headers_in.cookies cookie_name).map
          (fun value => (value, r)) := by
  simp only [token_source, h]
  cases env.ngx_http_parse_multi_header_lines r.headers_in.cookies cookie_name <;> rfl

theorem token_source_cookie_request {jwt_t : Type} (env : Env jwt_t)
    (r r1 : ngx_http_request_t) (auth_header : ngx_str_t)
    (h : r.headers_in.authorization = none)
    (hsource : token_source env r = some (auth_header, r1)) : r1 = r := by
  rw [token_source_of_cookie env r h] at hsource
  cases hp : env.ngx_http_parse_multi_header_lines r.headers_in.cookies cookie_name with
  | none => simp [hp] at hsource
  | some v =>
    simp [hp] at hsource
    exact hsource.2.symm

theorem authorization_value_set_value (h : ngx_http_headers_in_t) (i : Nat) (v : ngx_str_t)
    (hauth : h.authorization = some i) (hi : i < h.headers.length) :
    authorization_value { h with headers := set_value h.headers i v } = some v := by
  have hg := set_value_get_self h.headers i v
  simp [authorization_value, hauth, hg, hi]

/-- C8: with verification enabled and a key configured, a request without `Authorization`
header and without `authorization` cookie gets `NGX_OK`, and nothing of the request changes
but the error log; in particular its header list and `authorization` slot are as before. -/
theorem verify_missing_token_unchanged {jwt_t : Type} (env : Env jwt_t)
    (conf : ngx_http_jwt_conf_t) (r : ngx_http_request_t)
    (hverify : conf.verify = true) (hkey : conf.key ≠ [])
    (hheader : r.headers_in.authorization = none)
    (hcookie : env.ngx_http_parse_multi_header_lines r.headers_in.cookies cookie_name = none) :
    (ngx_http_jwt_verify_handler env conf r).1 = NGX_OK
    ∧ (ngx_http_jwt_verify_handler env conf r).2.headers_in.headers = r.headers_in.headers
    ∧ (ngx_http_jwt_verify_handler env conf r).2.headers_in.authorization
        = r.headers_in.authorization
    ∧ (ngx_http_jwt_verify_handler env conf r).2
        = ngx_log_error r log_msg.verify_no_authorization := by
  have hsrc : token_source env r = none := by
    simp [token_source, hheader, hcookie]
  have hlen : conf.key.length ≠ 0 := by
    intro h; exact hkey (List.length_eq_zero.mp h)
  simp [ngx_http_jwt_verify_handler, hverify, hlen, hsrc, ngx_log_error]

/-- C1: with verification enabled and a key configured, a candidate token (from the header
or from the cookie) that decodes and states algorithm `none` injects no claims, whatever the
issuance algorithm: the handler returns `NGX_OK`; when the header was the source its value is
left empty; when the cookie was the source the request headers are as before, so no header is
created. -/
theorem verify_rejects_alg_none {jwt_t : Type} (env : Env jwt_t)
    (conf : ngx_http_jwt_conf_t) (r r1 : ngx_http_request_t) (auth_header : ngx_str_t)
    (token : jwt_t)
    (hverify : conf.verify = true) (hkey : conf.key ≠ [])
    (hsource : token_source env r = some (auth_header, r1))
    (halloc : env.ngx_pcalloc r1 (auth_header.length + 1) = true)
    (hdecode : env.jwt_decode (c_str auth_header) conf.key = some token)
    (hnone : env.jwt_get_alg token = JWT_ALG_NONE) :
    (ngx_http_jwt_verify_handler env conf r).1 = NGX_OK
    ∧ (∀ i, r.headers_in.authorization = some i →
        (ngx_http_jwt_verify_handler env conf r).2.headers_in.authorization = some i
        ∧ (ngx_http_jwt_verify_handler env conf r).2.headers_in.headers
            = set_value r.headers_in.headers i []
        ∧ (i < r.headers_in.headers.length →
            authorization_value (ngx_http_jwt_verify_handler env conf r).2.headers_in
              = some []))
    ∧ (r.headers_in.authorization = none →
        (ngx_http_jwt_verify_handler env conf r).2.headers_in = r.headers_in) := by
  have hlen : conf.key.length ≠ 0 := by
    intro h; exact hkey (List.length_eq_zero.mp h)
  have hres : ngx_http_jwt_verify_handler env conf r
      = (NGX_OK, ngx_log_error r1 log_msg.verify_alg_none) := by
    simp [ngx_http_jwt_verify_handler, hverify, hlen, hsource, halloc, hdecode, hnone]
  rw [hres]
  refine ⟨rfl, ?_, ?_⟩
  · intro i hi
    have hr1 := hsource
    rw [token_source_of_header env r i hi] at hr1
    simp only [Option.some.injEq, Prod.mk.injEq] at hr1
    obtain ⟨-, hr1⟩ := hr1
    subst hr1
    refine ⟨by simpa [ngx_log_error] using hi, by simp [ngx_log_error], ?_⟩
    intro hlt
    simpa [ngx_log_error] using authorization_value_set_value r.headers_in i [] hi hlt
  · intro hnoauth
    have hr1 := token_source_cookie_request env r r1 auth_header hnoauth hsource
    subst hr1
    simp [ngx_log_error]

/-- C7: with verification enabled and a key configured, a request carrying an
`Authorization` header never keeps the raw token in it: on every path the value afterwards is
empty or the base64 encoding of the claims of the decoded token; and when the token fails to
decode, states algorithm `none`, or its claims fail to serialize, the handler returns `NGX_OK`
with the value empty and the other header lines untouched. -/
theorem verify_header_never_keeps_raw_token {jwt_t : Type} (env : Env jwt_t)
    (conf : ngx_http_jwt_conf_t) (r r1 : ngx_http_request_t) (raw : ngx_str_t) (i : Nat)
    (hverify : conf.verify = true) (hkey : conf.key ≠ [])
    (hauth : r.headers_in.authorization = some i) (hi : i < r.headers_in.headers.length)
    (hsource : token_source env r = some (raw, r1)) :
    (authorization_value (ngx_http_jwt_verify_handler env conf r).2.headers_in = some []
      ∨ ∃ token grants, env.jwt_decode (c_str raw) conf.key = some token
          ∧ env.jwt_get_alg token ≠ JWT_ALG_NONE
          ∧ env.jwt_get_grants_json token = some grants
          ∧ authorization_value (ngx_http_jwt_verify_handler env conf r).2.headers_in
              = some (env.ngx_encode_base64 grants.val))
    ∧ (env.ngx_pcalloc r1 (raw.length + 1) = true →
        (env.jwt_decode (c_str raw) conf.key = none
          ∨ ∃ token, env.jwt_decode (c_str raw) conf.key = some token
              ∧ (env.jwt_get_alg token = JWT_ALG_NONE
                  ∨ env.jwt_get_grants_json token = none)) →
        (ngx_http_jwt_verify_handler env conf r).1 = NGX_OK
        ∧ authorization_value (ngx_http_jwt_verify_handler env conf r).2.headers_in = some []
        ∧ (ngx_http_jwt_verify_handler env conf r).2.headers_in.headers
            = set_value r.headers_in.headers i []
        ∧ (ngx_http_jwt_verify_handler env conf r).2.headers_in.authorization = some i) := by
  have hlen : conf.key.length ≠ 0 := by
    intro h; exact hkey (List.length_eq_zero.mp h)
  have hr1 := hsource
  rw [token_source_of_header env r i hauth] at hr1
  simp only [Option.some.injEq, Prod.mk.injEq] at hr1
  obtain ⟨-, hr1⟩ := hr1
  have hval : authorization_value r1.headers_in = some [] := by
    rw [← hr1]
    exact authorization_value_set_value r.headers_in i [] hauth hi
  have hhs : r1.headers_in.headers = set_value r.headers_in.headers i [] := by
    rw [← hr1]
  have ha1 : r1.headers_in.authorization = some i := by
    rw [← hr1]; exact hauth
  have hi1 : i < r1.headers_in.headers.length := by
    rw [hhs, set_value_length]; exact hi
  constructor
  · by_cases halloc : env.ngx_pcalloc r1 (raw.length + 1) = true
    · cases hdecode : env.jwt_decode (c_str raw) conf.key with
      | none =>
        left
        simpa [ngx_http_jwt_verify_handler, hverify, hlen, hsource, halloc, hdecode,
          ngx_log_error] using hval
      | some token =>
        by_cases hnone : env.jwt_get_alg token = JWT_ALG_NONE
        · left
          simpa [ngx_http_jwt_verify_handler, hverify, hlen, hsource, halloc, hdecode, hnone,
            ngx_log_error] using hval
        · cases hgrants : env.jwt_get_grants_json token with
          | none =>
            left
            simpa [ngx_http_jwt_verify_handler, hverify, hlen, hsource, halloc, hdecode,
              hnone, hgrants, ngx_log_error] using hval
          | some grants =>
            by_cases hmalloc :
                env.malloc (env.ngx_base64_encoded_length (strlen grants)) = true
            · right
              refine ⟨token, grants, rfl, hnone, hgrants, ?_⟩
              simpa [ngx_http_jwt_verify_handler, hverify, hlen, hsource, halloc, hdecode,
                hnone, hgrants, hmalloc, ha1] using
                authorization_value_set_value r1.headers_in i
                  (env.ngx_encode_base64 grants.val) ha1 hi1
            · left
              simpa [ngx_http_jwt_verify_handler, hverify, hlen, hsource, halloc, hdecode,
                hnone, hgrants, hmalloc] using hval
    · left
      simpa [ngx_http_jwt_verify_handler, hverify, hlen, hsource, halloc] using hval
  · intro halloc hfail
    rcases hfail with hdecode | ⟨token, hdecode, hnone | hgrants⟩
    · simp [ngx_http_jwt_verify_handler, hverify, hlen, hsource, halloc, hdecode,
        ngx_log_error, hval, hhs, ha1]
    · simp [ngx_http_jwt_verify_handler, hverify, hlen, hsource, halloc, hdecode, hnone,
        ngx_log_error, hval, hhs, ha1]
    · by_cases hnone : env.jwt_get_alg token = JWT_ALG_NONE
      · simp [ngx_http_jwt_verify_handler, hverify, hlen, hsource, halloc, hdecode, hnone,
          ngx_log_error, hval, hhs, ha1]
      · simp [ngx_http_jwt_verify_handler, hverify, hlen, hsource, halloc, hdecode, hnone,
          hgrants, ngx_log_error, hval, hhs, ha1]

/-- The handler on a token that decodes, is signed and whose claims serialize. -/
theorem verify_handler_injects {jwt_t : Type} (env : Env jwt_t)
    (conf : ngx_http_jwt_conf_t) (r r1 : ngx_http_request_t) (auth_header : ngx_str_t)
    (token : jwt_t) (grants : CStr)
    (hverify : conf.verify = true) (hkey : conf.key ≠ [])
    (hwf : ∀ i, r.headers_in.authorization = some i → i < r.headers_in.headers.length)
    (hsource : token_source env r = some (auth_header, r1))
    (halloc : env.ngx_pcalloc r1 (auth_header.length + 1) = true)
    (hdecode : env.jwt_decode (c_str auth_header) conf.key = some token)
    (halg : env.jwt_get_alg token ≠ JWT_ALG_NONE)
    (hgrants : env.jwt_get_grants_json token = some grants)
    (hmalloc : env.malloc (env.ngx_base64_encoded_length (strlen grants)) = true)
    (hpush : r.headers_in.authorization = none → env.ngx_list_push r1 = true) :
    (ngx_http_jwt_verify_handler env conf r).1 = NGX_OK
    ∧ authorization_value (ngx_http_jwt_verify_handler env conf r).2.headers_in
        = some (env.ngx_encode_base64 grants.val)
    ∧ (∀ i, r.headers_in.authorization = some i →
        (ngx_http_jwt_verify_handler env conf r).2.headers_in.authorization = some i
        ∧ (ngx_http_jwt_verify_handler env conf r).2.headers_in.headers
            = set_value r.headers_in.headers i (env.ngx_encode_base64 grants.val))
    ∧ (r.headers_in.authorization = none →
        (ngx_http_jwt_verify_handler env conf r).2.headers_in.authorization
            = some r.headers_in.headers.length
        ∧ (ngx_http_jwt_verify_handler env conf r).2.headers_in.headers
            = r.headers_in.headers
                ++ [{ hash := 1, key := authorization_key,
                      value := env.ngx_encode_base64 grants.val }]) := by
  have hlen : conf.key.length ≠ 0 := by
    intro h; exact hkey (List.length_eq_zero.mp h)
  cases hauth : r.headers_in.authorization with
  | some i =>
    have hi := hwf i hauth
    have hr1 := hsource
    rw [token_source_of_header env r i hauth] at hr1
    simp only [Option.some.injEq, Prod.mk.injEq] at hr1
    obtain ⟨-, hr1⟩ := hr1
    have hhs : r1.headers_in.headers = set_value r.headers_in.headers i [] := by
      rw [← hr1]
    have ha1 : r1.headers_in.authorization = some i := by
      rw [← hr1]; exact hauth
    have hi1 : i < r1.headers_in.headers.length := by
      rw [hhs, set_value_length]; exact hi
    have hres : ngx_http_jwt_verify_handler env conf r
        = (NGX_OK, { r1 with headers_in := { r1.headers_in with
            headers := set_value r1.headers_in.headers i
              (env.ngx_encode_base64 grants.val) } }) := by
      simp [ngx_http_jwt_verify_handler, hverify, hlen, hsource, halloc, hdecode, halg,
        hgrants, hmalloc, ha1]
    rw [hres]
    refine ⟨rfl, ?_, ?_, ?_⟩
    · exact authorization_value_set_value r1.headers_in i _ ha1 hi1
    · intro j hj
      have hji : j = i := by simpa using hj.symm
      subst hji
      refine ⟨ha1, ?_⟩
      show set_value r1.headers_in.headers j _ = _
      rw [hhs, set_value_set_value]
    · intro h
      exact absurd h (by simp)
  | none =>
    have hr1 := token_source_cookie_request env r r1 auth_header hauth hsource
    subst hr1
    have hp := hpush hauth
    have hres : ngx_http_jwt_verify_handler env conf r1
        = (NGX_OK, { r1 with headers_in := { r1.headers_in with
            headers := r1.headers_in.headers
              ++ [{ hash := 1, key := authorization_key,
                    value := env.ngx_encode_base64 grants.val }],
            authorization := some r1.headers_in.headers.length } }) := by
      simp [ngx_http_jwt_verify_handler, hverify, hlen, hsource, halloc, hdecode, halg,
        hgrants, hmalloc, hauth, hp]
    rw [hres]
    refine ⟨rfl, ?_, ?_, ?_⟩
    · simp [authorization_value]
    · intro j hj
      exact absurd hj (by simp)
    · intro _
      exact ⟨rfl, rfl⟩

/-- C6: with verification enabled and a key configured, when the candidate token decodes
against the key, its algorithm is not `none` and its claims serialize to `grants`, the handler
returns `NGX_OK` and the `Authorization` header value is exactly the base64 encoding of
`grants`: an existing header keeps its place and gets the new value; when the token came from
the cookie a header line with key `Authorization` is appended and becomes the
`authorization` slot. -/
theorem verify_injects_claims {jwt_t : Type} (env : Env jwt_t)
    (conf : ngx_http_jwt_conf_t) (r r1 : ngx_http_request_t) (auth_header : ngx_str_t)
    (token : jwt_t) (grants : CStr)
    (hverify : conf.verify = true) (hkey : conf.key ≠ [])
    (hwf : ∀ i, r.headers_in.authorization = some i → i < r.headers_in.headers.length)
    (hsource : token_source env r = some (auth_header, r1))
    (halloc : env.ngx_pcalloc r1 (auth_header.length + 1) = true)
    (hdecode : env.jwt_decode (c_str auth_header) conf.key = some token)
    (halg : env.jwt_get_alg token ≠ JWT_ALG_NONE)
    (hgrants : env.jwt_get_grants_json token = some grants)
    (hmalloc : env.malloc (env.ngx_base64_encoded_length (strlen grants)) = true)
    (hpush : r.headers_in.authorization = none → env.ngx_list_push r1 = true) :
    (ngx_http_jwt_verify_handler env conf r).1 = NGX_OK
    ∧ authorization_value (ngx_http_jwt_verify_handler env conf r).2.headers_in
        = some (env.ngx_encode_base64 grants.val)
    ∧ (∀ i, r.headers_in.authorization = some i →
        (ngx_http_jwt_verify_handler env conf r).2.headers_in.authorization = some i
        ∧ (ngx_http_jwt_verify_handler env conf r).2.headers_in.headers
            = set_value r.headers_in.headers i (env.ngx_encode_base64 grants.val))
    ∧ (r.headers_in.authorization = none →
        (ngx_http_jwt_verify_handler env conf r).2.headers_in.authorization
            = some r.headers_in.headers.length
        ∧ (ngx_http_jwt_verify_handler env conf r).2.headers_in.headers
            = r.headers_in.headers
                ++ [{ hash := 1, key := authorization_key,
                      value := env.ngx_encode_base64 grants.val }]) :=
  verify_handler_injects env conf r r1 auth_header token grants hverify hkey hwf hsource halloc
    hdecode halg hgrants hmalloc hpush

/-! ## Issuance: accumulation -/

theorem size_sub_one (L : Nat) (h1 : 1 ≤ L) (h2 : L ≤ SIZE_MOD) :
    (L + SIZE_MOD - 1) % SIZE_MOD = L - 1 := by
  have h : L + SIZE_MOD - 1 = (L - 1) + SIZE_MOD := by omega
  rw [h, Nat.add_mod_right]
  exact Nat.mod_eq_of_lt (by omega)

theorem chain_bytes_append (c d : ngx_chain_t) :
    chain_bytes (c ++ d) = chain_bytes c ++ chain_bytes d := by
  induction c with
  | nil => simp [chain_bytes]
  | cons b cl ih => simp [chain_bytes, ih]

theorem calls_bytes_append (c d : List ngx_chain_t) :
    calls_bytes (c ++ d) = calls_bytes c ++ calls_bytes d := by
  induction c with
  | nil => simp [calls_bytes]
  | cons b cl ih => simp [calls_bytes, ih]

theorem collect_chain_fits (L : Nat) (body : List u_char) (chain : ngx_chain_t)
    (h1 : 1 ≤ L) (h2 : L ≤ SIZE_MOD)
    (hfit : body.length + (chain_bytes chain).length ≤ L - 1) :
    collect_chain L body chain = (body ++ chain_bytes chain, true) := by
  induction chain generalizing body with
  | nil => simp [collect_chain, chain_bytes]
  | cons b cl ih =>
    simp only [chain_bytes, List.length_append] at hfit
    have hsmall : (body.length + ngx_buf_size b) % SIZE_MOD = body.length + ngx_buf_size b := by
      apply Nat.mod_eq_of_lt
      unfold ngx_buf_size
      omega
    have hnot : ¬ (body.length + ngx_buf_size b) % SIZE_MOD > (L + SIZE_MOD - 1) % SIZE_MOD := by
      rw [hsmall, size_sub_one L h1 h2]
      unfold ngx_buf_size
      omega
    simp only [collect_chain, hnot, if_false]
    rw [ih (body ++ b.bytes) (by simp only [List.length_append]; omega)]
    simp [chain_bytes]

/-- With `ctx->length` at least 1 the loop keeps the occupied length below the capacity, one
octet being left for the terminating NUL; buffer sizes are assumed not to wrap `pos + size`. -/
theorem collect_chain_bounded (L : Nat) (body : List u_char) (chain : ngx_chain_t)
    (h1 : 1 ≤ L) (h2 : L ≤ SIZE_MOD) (hbody : body.length ≤ L - 1)
    (hsizes : ∀ b ∈ chain, ngx_buf_size b + L ≤ SIZE_MOD) :
    (collect_chain L body chain).1.length ≤ L - 1 := by
  induction chain generalizing body with
  | nil => simpa [collect_chain] using hbody
  | cons b cl ih =>
    have hb := hsizes b (by simp)
    have hsmall : (body.length + ngx_buf_size b) % SIZE_MOD = body.length + ngx_buf_size b :=
      Nat.mod_eq_of_lt (by omega)
    simp only [collect_chain, hsmall, size_sub_one L h1 h2]
    split
    · exact hbody
    · rename_i hfit
      apply ih
      · simp only [List.length_append]
        unfold ngx_buf_size at hfit
        omega
      · intro c hc
        exact hsizes c (by simp [hc])

/-- With `ctx->length` at least 1 the loop stops at the buffer that would take the occupied
length to `ctx->length` or above. -/
theorem collect_chain_overflow (L : Nat) (body : List u_char) (chain : ngx_chain_t)
    (h1 : 1 ≤ L) (h2 : L ≤ SIZE_MOD) (hbody : body.length ≤ L - 1)
    (hsizes : ∀ b ∈ chain, ngx_buf_size b + L ≤ SIZE_MOD)
    (hover : body.length + (chain_bytes chain).length > L - 1) :
    (collect_chain L body chain).2 = false := by
  induction chain generalizing body with
  | nil =>
    simp only [chain_bytes, List.length_nil] at hover
    omega
  | cons b cl ih =>
    have hb := hsizes b (by simp)
    have hsmall : (body.length + ngx_buf_size b) % SIZE_MOD = body.length + ngx_buf_size b :=
      Nat.mod_eq_of_lt (by omega)
    simp only [collect_chain, hsmall, size_sub_one L h1 h2]
    split
    · rfl
    · rename_i hfit
      simp only [chain_bytes, List.length_append] at hover
      unfold ngx_buf_size at hfit
      apply ih
      · simp only [List.length_append]; omega
      · intro c hc
        exact hsizes c (by simp [hc])
      · simp only [List.length_append]; omega

/-- With `ctx->length` 0 the bound `ctx->length - 1` wraps to the largest `size_t` and the
loop appends every buffer. -/
theorem collect_chain_zero (body : List u_char) (chain : ngx_chain_t) :
    collect_chain 0 body chain = (body ++ chain_bytes chain, true) := by
  induction chain generalizing body with
  | nil => simp [collect_chain, chain_bytes]
  | cons b cl ih =>
    have hnot : ¬ (body.length + ngx_buf_size b) % SIZE_MOD > (0 + SIZE_MOD - 1) % SIZE_MOD := by
      have hlt : (body.length + ngx_buf_size b) % SIZE_MOD < SIZE_MOD :=
        Nat.mod_lt _ (by unfold SIZE_MOD; omega)
      have hmax : (0 + SIZE_MOD - 1) % SIZE_MOD = SIZE_MOD - 1 := by
        rw [Nat.zero_add]
        exact Nat.mod_eq_of_lt (by unfold SIZE_MOD; omega)
      omega
    simp only [collect_chain, hnot, if_false]
    rw [ih]
    simp [chain_bytes]

theorem issue_token_ctx {jwt_t : Type} (env : Env jwt_t) (conf : ngx_http_jwt_conf_t)
    (r : ngx_http_request_t) (body : List u_char) :
    (issue_token env conf r body).2.ctx = r.ctx := by
  unfold issue_token
  repeat' split
  all_goals first
    | simp [ngx_log_error]; done
    | (dsimp only; split_ifs <;> simp)

theorem issue_token_status {jwt_t : Type} (env : Env jwt_t) (conf : ngx_http_jwt_conf_t)
    (r : ngx_http_request_t) (body : List u_char) :
    (issue_token env conf r body).2.headers_out.status = r.headers_out.status := by
  unfold issue_token
  repeat' split
  all_goals first
    | simp [ngx_log_error]; done
    | (dsimp only; split_ifs <;> simp)

theorem after_collect_ctx {jwt_t : Type} (env : Env jwt_t) (conf : ngx_http_jwt_conf_t)
    (r : ngx_http_request_t) (body : List u_char) (chain : ngx_chain_t) :
    (after_collect env conf r body chain).2.ctx = r.ctx := by
  unfold after_collect
  repeat' split
  all_goals first | rfl | exact issue_token_ctx env conf r body

theorem after_collect_status {jwt_t : Type} (env : Env jwt_t) (conf : ngx_http_jwt_conf_t)
    (r : ngx_http_request_t) (body : List u_char) (chain : ngx_chain_t) :
    (after_collect env conf r body chain).2.headers_out.status = r.headers_out.status := by
  unfold after_collect
  repeat' split
  all_goals first | rfl | exact issue_token_status env conf r body

/-- The body filter on a response issuance acts on: the chain is collected into the body
buffer, allocated on the first call, and the call ends with the size rejection or goes on
to `after_collect`. -/
theorem body_filter_active {jwt_t : Type} (env : Env jwt_t) (conf : ngx_http_jwt_conf_t)
    (r : ngx_http_request_t) (chain : ngx_chain_t) (ctx : ngx_http_jwt_ctx_t)
    (hissue : conf.issue = true) (hchain : chain ≠ [])
    (hstatus : r.headers_out.status = NGX_HTTP_OK) (hctx : r.ctx = some ctx)
    (halloc : ctx.body = none → env.ngx_palloc r ctx.length = true) :
    ngx_http_jwt_issue_body_filter env conf r chain
      = if (collect_chain ctx.length (ctx.body.getD []) chain).2 = true then
          after_collect env conf
            { r with ctx := some { ctx with
                body := some (collect_chain ctx.length (ctx.body.getD []) chain).1 } }
            (collect_chain ctx.length (ctx.body.getD []) chain).1 chain
        else
          (NGX_HTTP_REQUEST_ENTITY_TOO_LARGE,
           ngx_log_error
            { r with ctx := some { ctx with
                body := some (collect_chain ctx.length (ctx.body.getD []) chain).1 } }
            log_msg.issue_too_large_body) := by
  unfold ngx_http_jwt_issue_body_filter
  cases hb : ctx.body with
  | none =>
    have ha := halloc hb
    cases hc : (collect_chain ctx.length [] chain).2 <;>
      simp [hissue, hchain, hstatus, hctx, hb, ha, hc]
  | some bytes =>
    cases hc : (collect_chain ctx.length bytes chain).2 <;>
      simp [hissue, hchain, hstatus, hctx, hb, hc]

/-- One call of the body filter on a chain that fits: every buffer is appended and the call
goes on to `after_collect` with the grown body buffer. -/
theorem body_filter_fits {jwt_t : Type} (env : Env jwt_t) (conf : ngx_http_jwt_conf_t)
    (r : ngx_http_request_t) (chain : ngx_chain_t) (L : Nat) (b : Option (List u_char))
    (hissue : conf.issue = true) (hchain : chain ≠ [])
    (hstatus : r.headers_out.status = NGX_HTTP_OK) (hctx : r.ctx = some ⟨L, b⟩)
    (halloc : ∀ q, env.ngx_palloc q L = true)
    (h1 : 1 ≤ L) (h2 : L ≤ SIZE_MOD)
    (hfit : (b.getD []).length + (chain_bytes chain).length ≤ L - 1) :
    ngx_http_jwt_issue_body_filter env conf r chain
      = after_collect env conf
          { r with ctx := some ⟨L, some (b.getD [] ++ chain_bytes chain)⟩ }
          (b.getD [] ++ chain_bytes chain) chain := by
  rw [body_filter_active env conf r chain ⟨L, b⟩ hissue hchain hstatus hctx
    (fun _ => halloc r)]
  simp only [collect_chain_fits L (b.getD []) chain h1 h2 hfit, if_true]

/-- Feeding chains that fit keeps the response under issuance and leaves the body buffer
holding the octets fed, in arrival order. -/
theorem feed_accumulates {jwt_t : Type} (env : Env jwt_t) (conf : ngx_http_jwt_conf_t)
    (L : Nat) (hissue : conf.issue = true) (halloc : ∀ q, env.ngx_palloc q L = true)
    (h1 : 1 ≤ L) (h2 : L ≤ SIZE_MOD) (calls : List ngx_chain_t) :
    ∀ (r : ngx_http_request_t) (b : Option (List u_char)),
      r.headers_out.status = NGX_HTTP_OK → r.ctx = some ⟨L, b⟩ →
      (∀ chain ∈ calls, chain ≠ []) →
      (b.getD []).length + (calls_bytes calls).length ≤ L - 1 →
      (feed env conf r calls).headers_out.status = NGX_HTTP_OK
      ∧ ∃ b1, (feed env conf r calls).ctx = some ⟨L, b1⟩
          ∧ b1.getD [] = b.getD [] ++ calls_bytes calls := by
  induction calls with
  | nil =>
    intro r b hstatus hctx _ _
    exact ⟨hstatus, b, hctx, by simp [calls_bytes]⟩
  | cons chain calls ih =>
    intro r b hstatus hctx hne hfit
    simp only [calls_bytes, List.length_append] at hfit
    have hchain : chain ≠ [] := hne chain (by simp)
    have hstep := body_filter_fits env conf r chain L b hissue hchain hstatus hctx halloc
      h1 h2 (by omega)
    have hst : (ngx_http_jwt_issue_body_filter env conf r chain).2.headers_out.status
        = NGX_HTTP_OK := by
      rw [hstep, after_collect_status]; exact hstatus
    have hcx : (ngx_http_jwt_issue_body_filter env conf r chain).2.ctx
        = some ⟨L, some (b.getD [] ++ chain_bytes chain)⟩ := by
      rw [hstep, after_collect_ctx]
    have hrest := ih _ (some (b.getD [] ++ chain_bytes chain)) hst hcx
      (fun c hc => hne c (by simp [hc]))
      (by simp only [Option.getD_some, List.length_append]; omega)
    obtain ⟨hs, b1, hb1, hb1eq⟩ := hrest
    refine ⟨by simpa [feed] using hs, b1, by simpa [feed] using hb1, ?_⟩
    rw [hb1eq]
    simp [calls_bytes]

theorem to_off_t_small (n : Nat) (h : n < 2 ^ 63) : to_off_t n = (n : Int) := by
  have hmod : n % SIZE_MOD = n := Nat.mod_eq_of_lt (by unfold SIZE_MOD; omega)
  unfold to_off_t
  rw [hmod, if_pos h]

theorem to_size_t_small (n : Nat) (h : n < SIZE_MOD) : to_size_t (n : Int) = n := by
  unfold to_size_t
  have : ((n : Int) % (SIZE_MOD : Int)) = (n : Int) := by
    rw [← Int.natCast_mod, Nat.mod_eq_of_lt h]
  rw [this]
  simp

/-- The header filter on a response with a declared length within the buffer size: the
context is created with room for the body and a terminating NUL. -/
theorem header_filter_declared {jwt_t : Type} (env : Env jwt_t) (conf : ngx_http_jwt_conf_t)
    (r : ngx_http_request_t) (n : Nat)
    (hissue : conf.issue = true) (hfresh : r.ctx = none)
    (hlen : r.headers_out.content_length_n = (n : Int)) (hn : n < 2 ^ 63)
    (hle : n ≤ conf.issue_buffer_size) (hsize : conf.issue_buffer_size < 2 ^ 63)
    (halloc : env.ngx_pcalloc r sizeof_ctx = true) :
    ngx_http_jwt_issue_header_filter env conf r
      = (NGX_OK, { r with ctx := some ⟨n + 1, none⟩ }) := by
  have hoff := to_off_t_small conf.issue_buffer_size hsize
  have hsz := to_size_t_small n (by unfold SIZE_MOD; omega)
  have hmod : (n + 1) % SIZE_MOD = n + 1 := Nat.mod_eq_of_lt (by unfold SIZE_MOD; omega)
  have hnot : ¬ ((n : Int) > 0 ∧ (n : Int) > (conf.issue_buffer_size : Int)) := by omega
  have hneg : ((n : Int) = -1) = False := by
    apply propext; constructor
    · intro h; omega
    · intro h; exact h.elim
  unfold ngx_http_jwt_issue_header_filter
  simp only [hissue, hfresh, hlen, hoff, hsz, hmod, hneg, halloc, if_neg hnot]
  simp

/-- The header filter on a response with a declared length above the buffer size: the size
rejection, with nothing allocated and nothing passed downstream. -/
theorem header_filter_too_large {jwt_t : Type} (env : Env jwt_t) (conf : ngx_http_jwt_conf_t)
    (r : ngx_http_request_t)
    (hissue : conf.issue = true)
    (hpos : r.headers_out.content_length_n > 0)
    (hgt : r.headers_out.content_length_n > to_off_t conf.issue_buffer_size) :
    ngx_http_jwt_issue_header_filter env conf r
      = (NGX_HTTP_REQUEST_ENTITY_TOO_LARGE,
         ngx_log_error r log_msg.issue_too_large_body) := by
  simp [ngx_http_jwt_issue_header_filter, hissue, hpos, hgt]

theorem issue_token_log {jwt_t : Type} (env : Env jwt_t) (conf : ngx_http_jwt_conf_t)
    (r : ngx_http_request_t) (body : List u_char) :
    (issue_token env conf r body).2.log ≠ r.log ++ [log_msg.issue_too_large_body] := by
  unfold issue_token
  repeat' split
  all_goals first
    | simp [ngx_log_error]; done
    | (dsimp only; split_ifs <;> simp)

theorem after_collect_log {jwt_t : Type} (env : Env jwt_t) (conf : ngx_http_jwt_conf_t)
    (r : ngx_http_request_t) (body : List u_char) (chain : ngx_chain_t) :
    (after_collect env conf r body chain).2.log ≠ r.log ++ [log_msg.issue_too_large_body] := by
  unfold after_collect
  repeat' split
  all_goals first | simp; done | exact issue_token_log env conf r body

theorem after_collect_not_last {jwt_t : Type} (env : Env jwt_t) (conf : ngx_http_jwt_conf_t)
    (r : ngx_http_request_t) (body : List u_char) (chain : ngx_chain_t) (b : ngx_buf_t)
    (hb : chain.getLast? = some b) (hlast : b.last_buf = false) :
    after_collect env conf r body chain = (NGX_OK, r) := by
  simp [after_collect, hb, hlast]

theorem after_collect_last {jwt_t : Type} (env : Env jwt_t) (conf : ngx_http_jwt_conf_t)
    (r : ngx_http_request_t) (body : List u_char) (chain : ngx_chain_t) (b : ngx_buf_t)
    (hb : chain.getLast? = some b) (hlast : b.last_buf = true) :
    after_collect env conf r body chain = issue_token env conf r body := by
  simp [after_collect, hb, hlast]

/-- The body filter without a context: a server error, nothing passed downstream. -/
theorem body_filter_no_ctx {jwt_t : Type} (env : Env jwt_t) (conf : ngx_http_jwt_conf_t)
    (r : ngx_http_request_t) (chain : ngx_chain_t)
    (hissue : conf.issue = true) (hchain : chain ≠ [])
    (hstatus : r.headers_out.status = NGX_HTTP_OK) (hctx : r.ctx = none) :
    ngx_http_jwt_issue_body_filter env conf r chain
      = (NGX_ERROR, ngx_log_error r log_msg.issue_ctx_missing) := by
  simp [ngx_http_jwt_issue_body_filter, hissue, hchain, hstatus, hctx]

/-! ## Issuance: properties -/

/-- C3: for a fresh 200 response under issuance whose declared content length is the size of
its body. When the body has exactly `issue_buffer_size` octets, the header filter accepts it,
and each body-filter call, however the body is split into chains, appends its chain: the body
buffer then holds the octets received so far in arrival order, the call returns `NGX_OK` when
its chain does not end the response and goes on to issue the token when it does, and it never
logs the size rejection. When the body has `issue_buffer_size + 1` octets, the header filter
returns `NGX_HTTP_REQUEST_ENTITY_TOO_LARGE` with no context allocated and nothing passed
downstream, and a body-filter call after it passes nothing downstream either. -/
theorem issue_declared_size_boundary {jwt_t : Type} (env : Env jwt_t)
    (conf : ngx_http_jwt_conf_t) (r : ngx_http_request_t)
    (hissue : conf.issue = true) (hstatus : r.headers_out.status = NGX_HTTP_OK)
    (hfresh : r.ctx = none) (hoff : r.headers_out.content_length_n < 2 ^ 63) :
    (∀ calls : List ngx_chain_t,
      r.headers_out.content_length_n = (conf.issue_buffer_size : Int) →
      (calls_bytes calls).length = conf.issue_buffer_size →
      (∀ chain ∈ calls, chain ≠ []) →
      env.ngx_pcalloc r sizeof_ctx = true →
      (∀ q, env.ngx_palloc q (conf.issue_buffer_size + 1) = true) →
      ngx_http_jwt_issue_header_filter env conf r
        = (NGX_OK, { r with ctx := some ⟨conf.issue_buffer_size + 1, none⟩ })
      ∧ ∀ (pre : List ngx_chain_t) (chain : ngx_chain_t) (post : List ngx_chain_t),
          calls = pre ++ chain :: post →
          (ngx_http_jwt_issue_body_filter env conf
              (feed env conf (ngx_http_jwt_issue_header_filter env conf r).2 pre) chain).2.ctx
            = some ⟨conf.issue_buffer_size + 1, some (calls_bytes (pre ++ [chain]))⟩
          ∧ (ngx_http_jwt_issue_body_filter env conf
              (feed env conf (ngx_http_jwt_issue_header_filter env conf r).2 pre) chain).2.log
            ≠ (feed env conf (ngx_http_jwt_issue_header_filter env conf r).2 pre).log
                ++ [log_msg.issue_too_large_body]
          ∧ (∀ b, chain.getLast? = some b → b.last_buf = false →
              (ngx_http_jwt_issue_body_filter env conf
                (feed env conf (ngx_http_jwt_issue_header_filter env conf r).2 pre) chain).1
              = NGX_OK)
          ∧ (∀ b, chain.getLast? = some b → b.last_buf = true →
              ngx_http_jwt_issue_body_filter env conf
                (feed env conf (ngx_http_jwt_issue_header_filter env conf r).2 pre) chain
              = issue_token env conf
                  { feed env conf (ngx_http_jwt_issue_header_filter env conf r).2 pre with
                    ctx := some ⟨conf.issue_buffer_size + 1,
                                 some (calls_bytes (pre ++ [chain]))⟩ }
                  (calls_bytes (pre ++ [chain]))))
    ∧ (r.headers_out.content_length_n = (conf.issue_buffer_size : Int) + 1 →
        ngx_http_jwt_issue_header_filter env conf r
          = (NGX_HTTP_REQUEST_ENTITY_TOO_LARGE, ngx_log_error r log_msg.issue_too_large_body)
        ∧ (ngx_http_jwt_issue_header_filter env conf r).2.ctx = none
        ∧ (ngx_http_jwt_issue_header_filter env conf r).2.downstream = r.downstream
        ∧ ∀ chain : ngx_chain_t, chain ≠ [] →
            (ngx_http_jwt_issue_body_filter env conf
                (ngx_http_jwt_issue_header_filter env conf r).2 chain).1 = NGX_ERROR
            ∧ (ngx_http_jwt_issue_body_filter env conf
                (ngx_http_jwt_issue_header_filter env conf r).2 chain).2.downstream
              = r.downstream) := by
  constructor
  · intro calls hlen hbytes hne hpcalloc hpalloc
    have hn : conf.issue_buffer_size < 2 ^ 63 := by
      have := hoff; rw [hlen] at this; exact_mod_cast this
    have hhdr := header_filter_declared env conf r conf.issue_buffer_size hissue hfresh hlen
      hn (le_refl _) hn hpcalloc
    refine ⟨hhdr, ?_⟩
    intro pre chain post hsplit
    rw [hhdr]
    have h1 : 1 ≤ conf.issue_buffer_size + 1 := by omega
    have h2 : conf.issue_buffer_size + 1 ≤ SIZE_MOD := by unfold SIZE_MOD; omega
    have htotal : (calls_bytes pre).length + (chain_bytes chain).length
        + (calls_bytes post).length = conf.issue_buffer_size := by
      rw [← hbytes, hsplit, calls_bytes_append]
      simp only [calls_bytes, List.length_append]
      omega
    have hpre := feed_accumulates env conf (conf.issue_buffer_size + 1) hissue hpalloc h1 h2
      pre { r with ctx := some ⟨conf.issue_buffer_size + 1, none⟩ } none hstatus rfl
      (fun c hc => hne c (by rw [hsplit]; simp [hc]))
      (by simp only [Option.getD_none, List.length_nil]; omega)
    obtain ⟨hst, b1, hb1, hb1eq⟩ := hpre
    simp only [Option.getD_none, List.nil_append] at hb1eq
    have hchain : chain ≠ [] := hne chain (by rw [hsplit]; simp)
    have hstep := body_filter_fits env conf _ chain (conf.issue_buffer_size + 1) b1 hissue
      hchain hst hb1 hpalloc h1 h2 (by rw [hb1eq]; omega)
    have hacc : calls_bytes (pre ++ [chain]) = b1.getD [] ++ chain_bytes chain := by
      rw [calls_bytes_append, hb1eq]
      simp [calls_bytes]
    rw [hstep, ← hacc]
    refine ⟨?_, ?_, ?_, ?_⟩
    · rw [after_collect_ctx]
    · exact after_collect_log env conf _ _ chain
    · intro b hb hlast
      rw [after_collect_not_last env conf _ _ chain b hb hlast]
    · intro b hb hlast
      rw [after_collect_last env conf _ _ chain b hb hlast]
  · intro hlen
    have hpos : r.headers_out.content_length_n > 0 := by omega
    have hn : conf.issue_buffer_size < 2 ^ 63 := by
      have := hoff; rw [hlen] at this
      have h2 : ((conf.issue_buffer_size : Int)) < 2 ^ 63 := by omega
      exact_mod_cast h2
    have hgt : r.headers_out.content_length_n > to_off_t conf.issue_buffer_size := by
      rw [to_off_t_small _ hn, hlen]; omega
    have hhdr := header_filter_too_large env conf r hissue hpos hgt
    rw [hhdr]
    refine ⟨rfl, by simpa [ngx_log_error] using hfresh, by simp [ngx_log_error], ?_⟩
    intro chain hchain
    have hbf := body_filter_no_ctx env conf (ngx_log_error r log_msg.issue_too_large_body)
      chain hissue hchain (by simpa [ngx_log_error] using hstatus)
      (by simpa [ngx_log_error] using hfresh)
    rw [hbf]
    exact ⟨rfl, by simp [ngx_log_error]⟩

/-- What `issue_token` passes downstream: nothing, or the response headers alone when it
ends with an error after sending them, or the headers and one chain holding the token. -/
theorem issue_token_cases {jwt_t : Type} (env : Env jwt_t) (conf : ngx_http_jwt_conf_t)
    (r : ngx_http_request_t) (body : List u_char) :
    ((issue_token env conf r body).1 = NGX_ERROR
      ∧ (issue_token env conf r body).2.downstream = r.downstream)
    ∨ ((issue_token env conf r body).1 = NGX_ERROR
      ∧ ∃ ho, (issue_token env conf r body).2.downstream
                = r.downstream ++ [downstream_call.header ho])
    ∨ (∃ token_data, token_of_body env conf body = some token_data
        ∧ (issue_token env conf r body).2.headers_out.content_length_n
            = to_off_t (strlen token_data)
        ∧ (issue_token env conf r body).2.downstream
            = r.downstream
              ++ [downstream_call.header
                    { status := r.headers_out.status,
                      content_length_n := to_off_t (strlen token_data) },
                  downstream_call.body
                    [{ bytes := token_data.val, memory := true, last_buf := true }]]) := by
  unfold issue_token token_of_body
  repeat' split
  all_goals first
    | (left; simp [ngx_log_error]; done)
    | (dsimp only
       split_ifs
       · right; left; exact ⟨rfl, _, rfl⟩
       · right; right
         simp [*])

theorem issue_token_failure {jwt_t : Type} (env : Env jwt_t) (conf : ngx_http_jwt_conf_t)
    (r : ngx_http_request_t) (body : List u_char)
    (h : token_of_body env conf body = none) :
    (issue_token env conf r body).1 = NGX_ERROR
    ∧ (issue_token env conf r body).2.downstream = r.downstream := by
  unfold token_of_body at h
  unfold issue_token
  repeat' split
  all_goals first
    | (simp [ngx_log_error]; done)
    | (simp [*] at h)

theorem issue_token_success {jwt_t : Type} (env : Env jwt_t) (conf : ngx_http_jwt_conf_t)
    (r : ngx_http_request_t) (body : List u_char) (token_data : CStr)
    (h : token_of_body env conf body = some token_data)
    (hcleanup : ∀ q, env.ngx_pool_cleanup_add q = true)
    (hlink : ∀ q, env.ngx_alloc_chain_link q = true)
    (hbuf : ∀ q, env.ngx_calloc_buf q = true)
    (hnext : ∀ q, ¬ ((env.ngx_http_next_header_filter q).1 = NGX_ERROR
                      ∨ (env.ngx_http_next_header_filter q).1 > NGX_OK
                      ∨ (env.ngx_http_next_header_filter q).2 = true)) :
    (issue_token env conf r body).2.headers_out.content_length_n
        = to_off_t (strlen token_data)
    ∧ (issue_token env conf r body).2.downstream
        = r.downstream
          ++ [downstream_call.header
                { status := r.headers_out.status,
                  content_length_n := to_off_t (strlen token_data) },
              downstream_call.body
                [{ bytes := token_data.val, memory := true, last_buf := true }]] := by
  unfold token_of_body at h
  unfold issue_token
  repeat' split
  all_goals first
    | (simp [*] at h; done)
    | (rename_i hc; simp [hcleanup] at hc; done)
    | (rename_i hc; simp [hlink] at hc; done)
    | (rename_i hc; simp [hbuf] at hc; done)
    | (dsimp only
       simp [*] at h
       subst h
       split_ifs with hc
       · exact absurd hc (hnext _)
       · simp)

/-- While issuance is active (enabled, status 200, non-empty chain) a body-filter call passes
downstream nothing, or only the response headers when it ends with `NGX_ERROR` after sending
them, or the headers declaring the token length followed by one chain whose single buffer is
marked last and holds the octets of the token libjwt made from the body buffer. Nothing is
passed for a chain that does not end the response; with a capacity of at least 1 a chain that
takes the occupied length to the capacity or above gives `NGX_HTTP_REQUEST_ENTITY_TOO_LARGE`
and nothing is passed; when libjwt fails to parse, sign or encode, the call gives `NGX_ERROR`
and nothing is passed; and when the token is made, the allocations succeed and the next
header filter accepts, the headers and the token chain are what is passed. -/
theorem body_filter_passes_token_only {jwt_t : Type} (env : Env jwt_t)
    (conf : ngx_http_jwt_conf_t) (r : ngx_http_request_t) (chain : ngx_chain_t)
    (hissue : conf.issue = true) (hchain : chain ≠ [])
    (hstatus : r.headers_out.status = NGX_HTTP_OK) :
    ((ngx_http_jwt_issue_body_filter env conf r chain).2.downstream = r.downstream
      ∨ ((ngx_http_jwt_issue_body_filter env conf r chain).1 = NGX_ERROR
        ∧ ∃ ho, (ngx_http_jwt_issue_body_filter env conf r chain).2.downstream
                  = r.downstream ++ [downstream_call.header ho])
      ∨ ∃ ctx token_data, r.ctx = some ctx
          ∧ token_of_body env conf
              (collect_chain ctx.length (ctx.body.getD []) chain).1 = some token_data
          ∧ (ngx_http_jwt_issue_body_filter env conf r chain).2.headers_out.content_length_n
              = to_off_t (strlen token_data)
          ∧ (ngx_http_jwt_issue_body_filter env conf r chain).2.downstream
              = r.downstream
                ++ [downstream_call.header
                      { status := NGX_HTTP_OK,
                        content_length_n := to_off_t (strlen token_data) },
                    downstream_call.body
                      [{ bytes := token_data.val, memory := true, last_buf := true }]])
    ∧ (∀ b, chain.getLast? = some b → b.last_buf = false →
        (ngx_http_jwt_issue_body_filter env conf r chain).2.downstream = r.downstream)
    ∧ (∀ ctx, r.ctx = some ctx → (ctx.body = none → env.ngx_palloc r ctx.length = true) →
        (1 ≤ ctx.length → ctx.length ≤ SIZE_MOD →
          (ctx.body.getD []).length ≤ ctx.length - 1 →
          (∀ b ∈ chain, ngx_buf_size b + ctx.length ≤ SIZE_MOD) →
          (ctx.body.getD []).length + (chain_bytes chain).length > ctx.length - 1 →
          (ngx_http_jwt_issue_body_filter env conf r chain).1
              = NGX_HTTP_REQUEST_ENTITY_TOO_LARGE
          ∧ (ngx_http_jwt_issue_body_filter env conf r chain).2.downstream = r.downstream)
        ∧ (∀ b, chain.getLast? = some b → b.last_buf = true →
            (collect_chain ctx.length (ctx.body.getD []) chain).2 = true →
            token_of_body env conf
              (collect_chain ctx.length (ctx.body.getD []) chain).1 = none →
            (ngx_http_jwt_issue_body_filter env conf r chain).1 = NGX_ERROR
            ∧ (ngx_http_jwt_issue_body_filter env conf r chain).2.downstream = r.downstream)
        ∧ (∀ b token_data, chain.getLast? = some b → b.last_buf = true →
            (collect_chain ctx.length (ctx.body.getD []) chain).2 = true →
            token_of_body env conf
              (collect_chain ctx.length (ctx.body.getD []) chain).1 = some token_data →
            (∀ q, env.ngx_pool_cleanup_add q = true) →
            (∀ q, env.ngx_alloc_chain_link q = true) →
            (∀ q, env.ngx_calloc_buf q = true) →
            (∀ q, ¬ ((env.ngx_http_next_header_filter q).1 = NGX_ERROR
                      ∨ (env.ngx_http_next_header_filter q).1 > NGX_OK
                      ∨ (env.ngx_http_next_header_filter q).2 = true)) →
            (ngx_http_jwt_issue_body_filter env conf r chain).2.headers_out.content_length_n
                = to_off_t (strlen token_data)
            ∧ (ngx_http_jwt_issue_body_filter env conf r chain).2.downstream
                = r.downstream
                  ++ [downstream_call.header
                        { status := NGX_HTTP_OK,
                          content_length_n := to_off_t (strlen token_data) },
                      downstream_call.body
                        [{ bytes := token_data.val, memory := true, last_buf := true }]])) := by
  refine ⟨?_, ?_, ?_⟩
  · cases hctx : r.ctx with
    | none =>
      left
      rw [body_filter_no_ctx env conf r chain hissue hchain hstatus hctx]
      simp [ngx_log_error]
    | some ctx =>
      by_cases halloc : ctx.body = none → env.ngx_palloc r ctx.length = true
      · rw [body_filter_active env conf r chain ctx hissue hchain hstatus hctx halloc]
        cases hfit : (collect_chain ctx.length (ctx.body.getD []) chain).2 with
        | false =>
          left
          simp [ngx_log_error]
        | true =>
          simp only [if_true]
          unfold after_collect
          split
          · split
            · left; rfl
            · rcases issue_token_cases env conf
                { r with ctx := some { ctx with
                    body := some (collect_chain ctx.length (ctx.body.getD []) chain).1 } }
                (collect_chain ctx.length (ctx.body.getD []) chain).1 with h | h | h
              · left; exact h.2
              · right; left; exact h
              · right; right
                obtain ⟨td, h1, h2, h3⟩ := h
                refine ⟨ctx, td, rfl, h1, h2, ?_⟩
                rw [h3]
                simp [hstatus]
          · rcases issue_token_cases env conf
              { r with ctx := some { ctx with
                  body := some (collect_chain ctx.length (ctx.body.getD []) chain).1 } }
              (collect_chain ctx.length (ctx.body.getD []) chain).1 with h | h | h
            · left; exact h.2
            · right; left; exact h
            · right; right
              obtain ⟨td, h1, h2, h3⟩ := h
              refine ⟨ctx, td, rfl, h1, h2, ?_⟩
              rw [h3]
              simp [hstatus]
      · left
        have hb : ctx.body = none := by
          by_contra hne
          exact halloc (fun h => absurd h hne)
        have hf : env.ngx_palloc r ctx.length = false := by
          cases hp : env.ngx_palloc r ctx.length with
          | false => rfl
          | true => exact absurd (fun _ => hp) halloc
        simp [ngx_http_jwt_issue_body_filter, hissue, hchain, hstatus, hctx, hb, hf]
  · intro b hb hlast
    cases hctx : r.ctx with
    | none =>
      rw [body_filter_no_ctx env conf r chain hissue hchain hstatus hctx]
      simp [ngx_log_error]
    | some ctx =>
      cases hbody : ctx.body with
      | none =>
        cases hp : env.ngx_palloc r ctx.length with
        | false =>
          simp [ngx_http_jwt_issue_body_filter, hissue, hchain, hstatus, hctx, hbody, hp]
        | true =>
          rw [body_filter_active env conf r chain ctx hissue hchain hstatus hctx
            (fun _ => hp)]
          split
          · rw [after_collect_not_last env conf _ _ chain b hb hlast]
          · simp [ngx_log_error]
      | some bytes =>
        rw [body_filter_active env conf r chain ctx hissue hchain hstatus hctx
          (fun h => by simp [hbody] at h)]
        split
        · rw [after_collect_not_last env conf _ _ chain b hb hlast]
        · simp [ngx_log_error]
  · intro ctx hctx halloc
    rw [body_filter_active env conf r chain ctx hissue hchain hstatus hctx halloc]
    refine ⟨?_, ?_, ?_⟩
    · intro h1 h2 hocc hsizes hover
      have hfit := collect_chain_overflow ctx.length (ctx.body.getD []) chain h1 h2 hocc
        hsizes hover
      simp [hfit, ngx_log_error]
    · intro b hb hlast hfit hnone
      simp only [hfit, if_true]
      rw [after_collect_last env conf _ _ chain b hb hlast]
      exact issue_token_failure env conf _ _ hnone
    · intro b td hb hlast hfit hsome hcleanup hlink hbuf hnext
      simp only [hfit, if_true]
      rw [after_collect_last env conf _ _ chain b hb hlast]
      have h := issue_token_success env conf
        { r with ctx := some { ctx with
            body := some (collect_chain ctx.length (ctx.body.getD []) chain).1 } }
        _ td hsome hcleanup hlink hbuf hnext
      refine ⟨h.1, ?_⟩
      rw [h.2]
      simp [hstatus]

/-! ## Round trip -/

theorem c_str_val (s : CStr) : c_str s.val = s := by
  apply Subtype.ext
  show s.val.takeWhile (fun b => decide (b ≠ 0)) = s.val
  rw [List.takeWhile_eq_self_iff]
  intro b hb
  simpa using s.property b hb

theorem token_of_body_eq_some {jwt_t : Type} (env : Env jwt_t) (conf : ngx_http_jwt_conf_t)
    (body : List u_char) (token_data : CStr)
    (h : token_of_body env conf body = some token_data) :
    ∃ token, built env conf.issue_algorithm conf.key (c_str body) token
      ∧ env.jwt_encode_str token = some token_data := by
  unfold token_of_body at h
  cases h0 : env.jwt_new with
  | none => simp [h0] at h
  | some t0 =>
    cases h1 : env.jwt_set_alg t0 conf.issue_algorithm conf.key with
    | none => simp [h0, h1] at h
    | some t1 =>
      cases h2 : env.jwt_add_grants_json t1 (c_str body) with
      | none => simp [h0, h1, h2] at h
      | some t2 =>
        simp [h0, h1, h2] at h
        exact ⟨t2, ⟨t0, t1, h0, h1, h2⟩, h⟩

theorem header_filter_chunked {jwt_t : Type} (env : Env jwt_t) (conf : ngx_http_jwt_conf_t)
    (r : ngx_http_request_t)
    (hissue : conf.issue = true) (hfresh : r.ctx = none)
    (hlen : r.headers_out.content_length_n = -1)
    (halloc : env.ngx_pcalloc r sizeof_ctx = true) :
    ngx_http_jwt_issue_header_filter env conf r
      = (NGX_OK, { r with ctx := some ⟨conf.issue_buffer_size, none⟩ }) := by
  simp [ngx_http_jwt_issue_header_filter, hissue, hfresh, hlen, halloc]

theorem c_str_of_nul_free (l : List u_char) (h : ∀ b ∈ l, b ≠ 0) : (c_str l).val = l := by
  show l.takeWhile (fun b => decide (b ≠ 0)) = l
  rw [List.takeWhile_eq_self_iff]
  intro b hb
  simpa using h b hb

theorem json_parse_nul_free (text : List u_char) (v : json_t)
    (h : json_parse text = some v) : ∀ b ∈ text, b ≠ 0 := by
  unfold json_parse at h
  split at h
  · rename_i hall
    intro b hb
    have := List.all_eq_true.mp hall b hb
    simpa using this
  · simp at h

/-- A JSON text holds no NUL octet, so reading it as `char *` keeps all of it. -/
theorem json_object_c_str (C : List u_char) (h : json_object C) : (c_str C).val = C := by
  apply c_str_of_nul_free
  unfold json_object at h
  cases hp : json_parse C with
  | none => simp [hp] at h
  | some v => exact json_parse_nul_free C v hp

/-- Without a declared length the limit on the body is `issue_buffer_size - 1`: a chain
that takes a fresh response to exactly `issue_buffer_size` octets is rejected, whatever the
environment. -/
theorem chunked_limit_is_one_short {jwt_t : Type} (env : Env jwt_t)
    (conf : ngx_http_jwt_conf_t) (r : ngx_http_request_t) (chain : ngx_chain_t)
    (hissue : conf.issue = true) (hstatus : r.headers_out.status = NGX_HTTP_OK)
    (hfresh : r.ctx = none) (hlen : r.headers_out.content_length_n = -1)
    (hpcalloc : env.ngx_pcalloc r sizeof_ctx = true)
    (hpalloc : ∀ q n, env.ngx_palloc q n = true)
    (h1 : 1 ≤ conf.issue_buffer_size) (h2 : conf.issue_buffer_size < 2 ^ 63)
    (htotal : (chain_bytes chain).length = conf.issue_buffer_size) :
    (ngx_http_jwt_issue_body_filter env conf
      (ngx_http_jwt_issue_header_filter env conf r).2 chain).1
      = NGX_HTTP_REQUEST_ENTITY_TOO_LARGE := by
  rw [header_filter_chunked env conf r hissue hfresh hlen hpcalloc]
  have hchain : chain ≠ [] := by
    intro h
    rw [h] at htotal
    simp only [chain_bytes, List.length_nil] at htotal
    omega
  have hsizes : ∀ b ∈ chain, ngx_buf_size b + conf.issue_buffer_size ≤ SIZE_MOD := by
    intro b hb
    have hle : ngx_buf_size b ≤ (chain_bytes chain).length := by
      clear htotal hchain
      induction chain with
      | nil => simp at hb
      | cons c cl ih =>
        simp only [chain_bytes, List.length_append]
        rcases List.mem_cons.mp hb with h | h
        · subst h; unfold ngx_buf_size; omega
        · have := ih h; omega
    unfold SIZE_MOD
    omega
  rw [body_filter_active env conf { r with ctx := some ⟨conf.issue_buffer_size, none⟩ } chain
    ⟨conf.issue_buffer_size, none⟩ hissue hchain hstatus rfl (fun _ => hpalloc _ _)]
  have hover := collect_chain_overflow conf.issue_buffer_size [] chain h1
    (by unfold SIZE_MOD; omega) (by simp) hsizes (by simp only [List.length_nil]; omega)
  simp only [Option.getD_none] at hover ⊢
  simp [hover]


/-- C4 at a concrete input: with `issue_buffer_size` 4 and no declared length, a body of
exactly 4 octets, in one chain, is rejected with `NGX_HTTP_REQUEST_ENTITY_TOO_LARGE`, although
the same body with its length declared is collected. -/
theorem chunked_body_of_buffer_size_rejected :
    (ngx_http_jwt_issue_header_filter demo_env (demo_conf 4) (demo_response 200 (-1))).1
      = NGX_OK
    ∧ (ngx_http_jwt_issue_body_filter demo_env (demo_conf 4)
        (ngx_http_jwt_issue_header_filter demo_env (demo_conf 4) (demo_response 200 (-1))).2
        [demo_buf [1, 2, 3, 4] false]).1 = NGX_HTTP_REQUEST_ENTITY_TOO_LARGE
    ∧ (ngx_http_jwt_issue_body_filter demo_env (demo_conf 4)
        (ngx_http_jwt_issue_header_filter demo_env (demo_conf 4) (demo_response 200 4)).2
        [demo_buf [1, 2, 3, 4] false])
      = (NGX_OK, { demo_response 200 4 with ctx := some ⟨5, some [1, 2, 3, 4]⟩ }) := by
  decide

/-- With `ctx->length` at least 1 a body-filter call leaves the capacity as it is and the
occupied length below it. -/
theorem body_filter_keeps_bound {jwt_t : Type} (env : Env jwt_t) (conf : ngx_http_jwt_conf_t)
    (r : ngx_http_request_t) (chain : ngx_chain_t) (ctx : ngx_http_jwt_ctx_t)
    (hctx : r.ctx = some ctx) (h1 : 1 ≤ ctx.length) (h2 : ctx.length ≤ SIZE_MOD)
    (hocc : ctx.occupied ≤ ctx.length - 1)
    (hsizes : ∀ b ∈ chain, ngx_buf_size b + ctx.length ≤ SIZE_MOD) :
    ∃ ctx1, (ngx_http_jwt_issue_body_filter env conf r chain).2.ctx = some ctx1
      ∧ ctx1.length = ctx.length ∧ ctx1.occupied ≤ ctx.length - 1 := by
  by_cases hpass : conf.issue = false ∨ chain = [] ∨ r.headers_out.status ≠ NGX_HTTP_OK
  · refine ⟨ctx, ?_, rfl, hocc⟩
    have hc : (!conf.issue) = true ∨ chain = [] ∨ r.headers_out.status ≠ NGX_HTTP_OK := by
      rcases hpass with h | h | h
      · left; simp [h]
      · right; left; exact h
      · right; right; exact h
    unfold ngx_http_jwt_issue_body_filter
    rw [if_pos hc]
    dsimp only
    split <;> exact hctx
  · have hissue : conf.issue = true := by
      cases h : conf.issue with
      | true => rfl
      | false => exact absurd (Or.inl h) hpass
    have hchain : chain ≠ [] := fun h => hpass (Or.inr (Or.inl h))
    have hstatus : r.headers_out.status = NGX_HTTP_OK := by
      by_contra h; exact hpass (Or.inr (Or.inr h))
    by_cases halloc : ctx.body = none → env.ngx_palloc r ctx.length = true
    · rw [body_filter_active env conf r chain ctx hissue hchain hstatus hctx halloc]
      have hb0 : (ctx.body.getD []).length ≤ ctx.length - 1 := by
        unfold ngx_http_jwt_ctx_t.occupied at hocc
        cases hb : ctx.body with
        | none => simp
        | some bytes => simpa [hb] using hocc
      have hbound := collect_chain_bounded ctx.length (ctx.body.getD []) chain h1 h2 hb0 hsizes
      split
      · exact ⟨_, after_collect_ctx env conf _ _ chain, rfl, hbound⟩
      · exact ⟨_, rfl, rfl, hbound⟩
    · refine ⟨ctx, ?_, rfl, hocc⟩
      have hb : ctx.body = none := by
        by_contra hne
        exact halloc (fun h => absurd h hne)
      have hf : env.ngx_palloc r ctx.length = false := by
        cases hp : env.ngx_palloc r ctx.length with
        | false => rfl
        | true => exact absurd (fun _ => hp) halloc
      simp [ngx_http_jwt_issue_body_filter, hissue, hchain, hstatus, hctx, hb, hf]

/-- C9 at a concrete input: with `issue_buffer_size` 0 and no declared length the buffer is
created with capacity 0, `ctx->length - 1` wraps, and a chain of one octet is appended: the
call returns `NGX_OK` and leaves the occupied length 1 above the capacity 0. -/
theorem zero_buffer_size_overflows :
    (ngx_http_jwt_issue_header_filter demo_env (demo_conf 0) (demo_response 200 (-1)))
      = (NGX_OK, { demo_response 200 (-1) with ctx := some ⟨0, none⟩ })
    ∧ (ngx_http_jwt_issue_body_filter demo_env (demo_conf 0)
        (ngx_http_jwt_issue_header_filter demo_env (demo_conf 0) (demo_response 200 (-1))).2
        [demo_buf [7] false])
      = (NGX_OK, { demo_response 200 (-1) with ctx := some ⟨0, some [7]⟩ })
    ∧ (ngx_http_jwt_issue_body_filter demo_env (demo_conf 0)
        (ngx_http_jwt_issue_header_filter demo_env (demo_conf 0) (demo_response 200 (-1))).2
        [demo_buf [7] false]).2.ctx.map (fun ctx => (ctx.length, ctx.occupied))
      = some (0, 1) := by
  decide

/-- C5 at a concrete input: with `issue_buffer_size` 0 and no declared length, a final chain
holding the two octets of an empty JSON object overflows the buffer of capacity 0, and yet the
call returns `NGX_OK` and passes a token downstream; with `issue_buffer_size` 1 the same chain
is rejected with `NGX_HTTP_REQUEST_ENTITY_TOO_LARGE` and nothing is passed. -/
theorem overflowing_chunk_forwarded_as_token :
    ((ngx_http_jwt_issue_body_filter demo_env (demo_conf 0)
        (ngx_http_jwt_issue_header_filter demo_env (demo_conf 0) (demo_response 200 (-1))).2
        [demo_buf [123, 125] true]).1 = NGX_OK
      ∧ (ngx_http_jwt_issue_body_filter demo_env (demo_conf 0)
          (ngx_http_jwt_issue_header_filter demo_env (demo_conf 0) (demo_response 200 (-1))).2
          [demo_buf [123, 125] true]).2.ctx.map (fun ctx => (ctx.length, ctx.occupied))
        = some (0, 2)
      ∧ (ngx_http_jwt_issue_body_filter demo_env (demo_conf 0)
          (ngx_http_jwt_issue_header_filter demo_env (demo_conf 0) (demo_response 200 (-1))).2
          [demo_buf [123, 125] true]).2.downstream
        = [downstream_call.header { status := 200, content_length_n := 4 },
           downstream_call.body
            [{ bytes := [65, 46, 123, 125], memory := true, last_buf := true }]])
    ∧ ((ngx_http_jwt_issue_body_filter demo_env (demo_conf 1)
        (ngx_http_jwt_issue_header_filter demo_env (demo_conf 1) (demo_response 200 (-1))).2
        [demo_buf [123, 125] true]).1 = NGX_HTTP_REQUEST_ENTITY_TOO_LARGE
      ∧ (ngx_http_jwt_issue_body_filter demo_env (demo_conf 1)
          (ngx_http_jwt_issue_header_filter demo_env (demo_conf 1) (demo_response 200 (-1))).2
          [demo_buf [123, 125] true]).2.downstream = []) := by
  decide

/-- Outside the trigger condition (issuance off, no chain, or a status other than 200) the
body filter sends the headers on and, when the next header filter accepts and the request is
not header-only, hands the chain it was given to the next body filter and returns its code. -/
theorem body_filter_pass_through {jwt_t : Type} (env : Env jwt_t) (conf : ngx_http_jwt_conf_t)
    (r : ngx_http_request_t) (chain : ngx_chain_t)
    (hpass : conf.issue = false ∨ chain = [] ∨ r.headers_out.status ≠ NGX_HTTP_OK)
    (hnext : ¬ ((env.ngx_http_next_header_filter r).1 = NGX_ERROR
                ∨ (env.ngx_http_next_header_filter r).1 > NGX_OK
                ∨ (env.ngx_http_next_header_filter r).2 = true)) :
    ngx_http_jwt_issue_body_filter env conf r chain
      = (env.ngx_http_next_body_filter
           { r with header_only := (env.ngx_http_next_header_filter r).2,
                    downstream := r.downstream ++ [downstream_call.header r.headers_out] }
           chain,
         { r with header_only := (env.ngx_http_next_header_filter r).2,
                  downstream := r.downstream
                    ++ [downstream_call.header r.headers_out, downstream_call.body chain] }) := by
  have hc : (!conf.issue) = true ∨ chain = [] ∨ r.headers_out.status ≠ NGX_HTTP_OK := by
    rcases hpass with h | h | h
    · left; simp [h]
    · right; left; exact h
    · right; right; exact h
  unfold ngx_http_jwt_issue_body_filter
  rw [if_pos hc]
  dsimp only
  rw [if_neg hnext]
  simp

/-- C10 at a concrete input: with issuance on, a 404 response declaring 2 octets against an
`issue_buffer_size` of 1 is rejected by the header filter with
`NGX_HTTP_REQUEST_ENTITY_TOO_LARGE`, although the body filter would pass it on untouched. -/
theorem not_found_response_rejected_by_header_filter :
    (ngx_http_jwt_issue_header_filter demo_env (demo_conf 1) (demo_response 404 2)).1
      = NGX_HTTP_REQUEST_ENTITY_TOO_LARGE
    ∧ (ngx_http_jwt_issue_body_filter demo_env (demo_conf 1) (demo_response 404 2)
        [demo_buf [1, 2] true])
      = (NGX_OK,
         { demo_response 404 2 with
           downstream := [downstream_call.header ⟨404, 2⟩,
                          downstream_call.body [demo_buf [1, 2] true]] }) := by
  decide

/-! ## The properties at concrete inputs -/

theorem verify_missing_token_unchanged_witness :
    (ngx_http_jwt_verify_handler demo_env (demo_conf 4) (demo_request [demo_host] none [])).1
      = NGX_OK
    ∧ (ngx_http_jwt_verify_handler demo_env (demo_conf 4)
        (demo_request [demo_host] none [])).2.headers_in.headers = [demo_host]
    ∧ (ngx_http_jwt_verify_handler demo_env (demo_conf 4)
        (demo_request [demo_host] none [])).2.headers_in.authorization = none
    ∧ (ngx_http_jwt_verify_handler demo_env (demo_conf 4) (demo_request [demo_host] none [])).2
        = ngx_log_error (demo_request [demo_host] none []) log_msg.verify_no_authorization :=
  verify_missing_token_unchanged demo_env (demo_conf 4) (demo_request [demo_host] none [])
    rfl (by decide) rfl rfl

theorem verify_rejects_alg_none_witness :
    (ngx_http_jwt_verify_handler demo_env (demo_conf 4)
        (demo_header_request (demo_token JWT_ALG_NONE))).1 = NGX_OK
    ∧ authorization_value (ngx_http_jwt_verify_handler demo_env (demo_conf 4)
        (demo_header_request (demo_token JWT_ALG_NONE))).2.headers_in = some [] :=
  have h := verify_rejects_alg_none demo_env (demo_conf 4)
    (demo_header_request (demo_token JWT_ALG_NONE)) (demo_header_request [])
    (demo_token JWT_ALG_NONE) (JWT_ALG_NONE, demo_claims)
    rfl (by decide) (by decide) rfl (by decide) rfl
  ⟨h.1, (h.2.1 1 rfl).2.2 (by decide)⟩

theorem verify_header_never_keeps_raw_token_witness :
    (ngx_http_jwt_verify_handler demo_env (demo_conf 4) (demo_header_request [120])).1 = NGX_OK
    ∧ authorization_value (ngx_http_jwt_verify_handler demo_env (demo_conf 4)
        (demo_header_request [120])).2.headers_in = some []
    ∧ (ngx_http_jwt_verify_handler demo_env (demo_conf 4)
        (demo_header_request [120])).2.headers_in.headers
        = set_value (demo_header_request [120]).headers_in.headers 1 []
    ∧ (ngx_http_jwt_verify_handler demo_env (demo_conf 4)
        (demo_header_request [120])).2.headers_in.authorization = some 1 :=
  (verify_header_never_keeps_raw_token demo_env (demo_conf 4) (demo_header_request [120])
    (demo_header_request []) [120] 1 rfl (by decide) rfl (by decide) (by decide)).2
    rfl (Or.inl (by decide))

theorem verify_injects_claims_witness :
    (ngx_http_jwt_verify_handler demo_env (demo_conf 4)
        (demo_cookie_request (demo_token JWT_ALG_HS256))).1 = NGX_OK
    ∧ (ngx_http_jwt_verify_handler demo_env (demo_conf 4)
        (demo_cookie_request (demo_token JWT_ALG_HS256))).2.headers_in.headers
        = [demo_host, { hash := 1, key := authorization_key,
                        value := demo_encode demo_claims }] :=
  have h := verify_injects_claims demo_env (demo_conf 4)
    (demo_cookie_request (demo_token JWT_ALG_HS256))
    (demo_cookie_request (demo_token JWT_ALG_HS256))
    (demo_token JWT_ALG_HS256) (JWT_ALG_HS256, demo_claims) (c_str demo_claims)
    rfl (by decide) (by decide) (by decide) rfl (by decide) (by decide) rfl rfl (fun _ => rfl)
  ⟨h.1, (h.2.2.2 rfl).2⟩

theorem issue_declared_size_boundary_witness :
    (ngx_http_jwt_issue_body_filter demo_env (demo_conf 4)
        (feed demo_env (demo_conf 4)
          (ngx_http_jwt_issue_header_filter demo_env (demo_conf 4) (demo_response 200 4)).2
          [[demo_buf [1, 2] false]])
        [demo_buf [3, 4] true]).2.ctx
      = some ⟨5, some (calls_bytes ([[demo_buf [1, 2] false]] ++ [[demo_buf [3, 4] true]]))⟩ :=
  (((issue_declared_size_boundary demo_env (demo_conf 4) (demo_response 200 4)
      rfl rfl rfl (by decide)).1
      [[demo_buf [1, 2] false], [demo_buf [3, 4] true]] rfl rfl (by decide) rfl
      (fun _ => rfl)).2
      [[demo_buf [1, 2] false]] [demo_buf [3, 4] true] [] rfl).1

/-- JSON equality ignores the order of keys and white space: the texts
`{"a":1,"b":[true,null]}` and `{"b":[true, null],"a":1}` are equal. -/
theorem json_equal_key_order :
    json_equal
      [123, 34, 97, 34, 58, 49, 44, 34, 98, 34, 58, 91, 116, 114, 117, 101, 44, 110, 117, 108,
        108, 93, 125]
      [123, 34, 98, 34, 58, 91, 116, 114, 117, 101, 44, 32, 110, 117, 108, 108, 93, 44, 34, 97,
        34, 58, 49, 125] := by
  decide

/-- JSON equality tells claim sets apart: the empty object is not equal to `demo_claims`, and
a text that is not JSON is equal to nothing. -/
theorem json_equal_distinguishes :
    ¬ json_equal [123, 125] demo_claims
    ∧ ¬ json_equal [123, 120, 125] [123, 120, 125] := by
  decide

set_option maxRecDepth 100000 in
theorem demo_decode_octet (b : u_char) :
    (Fin.ofNat (((Fin.ofNat (97 + b.val / 16) : u_char).val - 97) * 16
      + ((Fin.ofNat (97 + b.val % 16) : u_char).val - 97)) : u_char) = b := by
  revert b
  decide

theorem demo_decode_encode (s : ngx_str_t) : demo_decode (demo_encode s) = some s := by
  induction s with
  | nil => rfl
  | cons b bs ih =>
    simp only [demo_encode, demo_decode, ih, Option.map_some']
    rw [demo_decode_octet]

theorem demo_built (alg : jwt_alg_t) (key : ngx_str_t) (c : CStr)
    (token : jwt_alg_t × List u_char) (h : built demo_json_env alg key c token) :
    token = (alg, c.val) ∧ (json_parse c.val).isSome = true := by
  obtain ⟨t0, t1, h0, h1, h2⟩ := h
  simp only [demo_json_env, demo_env, Option.some.injEq] at h0 h1 h2
  subst h0 h1
  split at h2
  · rename_i hp
    exact ⟨by simpa using h2.symm, hp⟩
  · simp at h2

theorem demo_tag_ne_zero (alg : jwt_alg_t) : demo_tag alg ≠ 0 := by
  cases alg <;> decide

theorem demo_alg_tag (alg : jwt_alg_t) : demo_alg (demo_tag alg) = some alg := by
  cases alg <;> decide

theorem json_equal_self (s : List u_char) (h : (json_parse s).isSome = true) :
    json_equal s s := by
  unfold json_equal
  cases hp : json_parse s with
  | none => simp [hp] at h
  | some v => simp

theorem demo_decode_inverts_encode (alg : jwt_alg_t) (key : ngx_str_t) :
    decode_inverts_encode demo_json_env alg key := by
  intro c token token_data h henc
  obtain ⟨ht, hparse⟩ := demo_built alg key c token h
  subst ht
  simp only [demo_json_env, demo_env, Option.some.injEq] at henc
  have hval : token_data.val = demo_tag alg :: 46 :: c.val := by
    rw [← henc]
    apply c_str_of_nul_free
    intro b hb
    simp only [List.mem_cons] at hb
    rcases hb with hb | hb | hb
    · rw [hb]; exact demo_tag_ne_zero alg
    · rw [hb]; decide
    · exact c.property b hb
  refine ⟨(alg, c.val), c, ?_, rfl, ?_, json_equal_self c.val hparse⟩
  · simp only [demo_json_env, demo_env, hval, demo_alg_tag, Option.map_some']
  · simp only [demo_json_env, demo_env, c_str_val]

end NgxJwt
